import Mathlib

/-!
# The non-blocking SFTP download driver of `src/libssh2_asio.cpp`

The program chains continuations on a single-threaded event loop.  Every call
between the stage functions of `namespace impl` is the last statement of its
branch, so the embedding is a small-step machine: `Control.call f` means that
the body of `f` is about to run, `Control.loop` that control is back in
`io_context::run`.  The results of the external collaborators (Boost.Asio and
libssh2) are read from an environment `Env`, indexed by the number of earlier
calls of the same primitive.  The state carries a trace of the observable
operations in program order.

Outside the model: the text printed to `stderr` and `stdout`, failures of the
local file system (`output_file` is the sequence of bytes handed to the
stream), and the depth of the call stack.  An outstanding operation that never
completes stalls a session; here the event loop completes what is outstanding,
with whatever error code the environment gives, so every state the program can
reach is a state of the model.
-/

namespace Libssh2Asio

/-- One `char` of file content. -/
abbrev Byte := Nat

/-- A raw library pointer; `0` is the null pointer. -/
abbrev Ptr := Nat

/-- The macro `BUFFER_SIZE` (line 18). -/
def BUFFER_SIZE : Nat := 0x1000

/-- The would-block code of libssh2, `LIBSSH2_ERROR_EAGAIN` in `libssh2.h`. -/
def LIBSSH2_ERROR_EAGAIN : Int := -37

/-- The two directions of `socket_base::wait_type` the program uses. -/
inductive WaitType
  | wait_read
  | wait_write
  deriving DecidableEq

/-- The functions of the program that take part in a session. -/
inductive Fn
  | downloadFile
  | resolveHandler
  | connectHandler
  | doSessionHandshake
  | doAuthentication
  | doSFTPInit
  | doOpenFile
  | doReceiveFile
  | doCleanup
  deriving DecidableEq

/-- An asynchronous operation registered with the event loop, together with
the continuation its completion handler runs. -/
inductive Pending
  | resolve
  | connect
  | wait (w : WaitType) (k : Fn)
  deriving DecidableEq

/-- Observable operations, in program order. -/
inductive Event
  | call (f : Fn)
  | ofstream_open (destination_path : String)
  | async_resolve (host : String) (service : String)
  | resolved (ec : Option String) (endpoints : List String)
  | make_socket
  | async_connect
  | connected (ec : Option String)
  | session_init (session : Ptr)
  | session_set_blocking (session : Ptr) (blocking : Nat)
  | session_handshake (rc : Int)
  | hostkey_hash
  | userauth_password (username : String) (password : String) (rc : Int)
  | sftp_init (sftp_session : Ptr)
  | session_last_errno (errno : Int)
  | sftp_open (path : String) (sftp_handle : Ptr)
  | sftp_read (rc : Int)
  | write (bytes : List Byte)
  | async_wait (w : WaitType) (k : Fn)
  | waited (w : WaitType) (k : Fn) (ec : Option String)
  | sftp_close (sftp_handle : Ptr)
  | sftp_shutdown (sftp_session : Ptr)
  | session_disconnect (session : Ptr)
  | session_free (session : Ptr)
  | handler
  | throw (msg : String)
  deriving DecidableEq

/-- What `libssh2_sftp_read` did: its return value and the bytes it stored at
the start of the buffer. -/
structure ReadResult where
  rc : Int
  data : List Byte

/-- Outcomes of the external primitives.  An error code `ec` is `none` when
the operation succeeded and `some msg` (with `msg = ec.message()`) otherwise.
The functions give the result of the k-th call of a primitive. -/
structure Env where
  resolve_ec : Option String
  endpoints : List String
  connect_ec : Option String
  session_init : Ptr
  session_handshake : Nat → Int
  userauth_password : Nat → Int
  sftp_init : Nat → Ptr
  sftp_open : Nat → Ptr
  session_last_errno : Nat → Int
  sftp_read : Nat → ReadResult
  wait_ec : Nat → Option String

/-- The arguments of `downloadFile` other than the event loop and the handler. -/
structure Request where
  target_host : String
  target_path : String
  destination_path : String
  username : String
  password : String
  deriving DecidableEq

/-- The struct `impl::Context` (lines 22-35).  `resolver` and `socket` record
whether the `unique_ptr` owns an object; `output_file` is the sequence of bytes
written to the stream so far. -/
structure Context where
  resolver : Bool
  socket : Bool
  session : Ptr
  sftp_session : Ptr
  sftp_handle : Ptr
  target_host : String
  target_path : String
  output_file : List Byte
  username : String
  password : String
  deriving DecidableEq

/-- Where control is. -/
inductive Control
  | call (f : Fn)
  | loop
  | finished
  | thrown (msg : String)
  deriving DecidableEq

/-- A session: its context, the operations outstanding at the event loop, the
number of calls made so far of each primitive, and the trace. -/
structure State where
  ctx : Context
  control : Control
  pending : List Pending
  n_handshake : Nat
  n_userauth : Nat
  n_sftp_init : Nat
  n_sftp_open : Nat
  n_last_errno : Nat
  n_sftp_read : Nat
  n_wait : Nat
  trace : List Event
  deriving DecidableEq

/-- The function `impl::doCleanup` (lines 37-47). -/
def doCleanup (s : State) : State :=
  { s with
    trace := s.trace ++
      [Event.call Fn.doCleanup,
       Event.session_set_blocking s.ctx.session 1,
       Event.sftp_close s.ctx.sftp_handle,
       Event.sftp_shutdown s.ctx.sftp_session,
       Event.session_disconnect s.ctx.session,
       Event.session_free s.ctx.session,
       Event.handler]
    control := Control.loop }

/-- The buffer of `doReceiveFile` after the read: `BUFFER_SIZE` zero bytes
overwritten from the start by what the library stored. -/
def bufferAfter (r : ReadResult) : List Byte :=
  (r.data ++ List.replicate BUFFER_SIZE 0).take BUFFER_SIZE

/-- The function `impl::doReceiveFile` (lines 49-74).  In `rc >= buffer.size()`
the operand `rc` is positive, so its conversion to `size_t` keeps its value. -/
def doReceiveFile (env : Env) (s : State) : State :=
  let r := env.sftp_read s.n_sftp_read
  let rc := r.rc
  let buffer := bufferAfter r
  let s1 : State :=
    { s with
      n_sftp_read := s.n_sftp_read + 1
      trace := s.trace ++ [Event.call Fn.doReceiveFile, Event.sftp_read rc] }
  if 0 < rc then
    let s2 : State :=
      { s1 with
        ctx := { s1.ctx with output_file := s1.ctx.output_file ++ buffer.take rc.toNat }
        trace := s1.trace ++ [Event.write (buffer.take rc.toNat)] }
    if (BUFFER_SIZE : Int) ≤ rc then
      { s2 with control := Control.call Fn.doReceiveFile }
    else
      { s2 with control := Control.call Fn.doCleanup }
  else if rc = LIBSSH2_ERROR_EAGAIN then
    { s1 with
      pending := s1.pending ++ [Pending.wait WaitType.wait_read Fn.doReceiveFile]
      trace := s1.trace ++ [Event.async_wait WaitType.wait_read Fn.doReceiveFile]
      control := Control.loop }
  else if rc < 0 then
    { s1 with
      trace := s1.trace ++ [Event.throw "Failed to receive file"]
      control := Control.thrown "Failed to receive file" }
  else
    { s1 with control := Control.loop }

/-- The function `impl::doOpenFile` (lines 76-94). -/
def doOpenFile (env : Env) (s : State) : State :=
  let p := env.sftp_open s.n_sftp_open
  let s1 : State :=
    { s with
      ctx := { s.ctx with sftp_handle := p }
      n_sftp_open := s.n_sftp_open + 1
      trace := s.trace ++ [Event.call Fn.doOpenFile, Event.sftp_open s.ctx.target_path p] }
  if p = 0 then
    let e := env.session_last_errno s.n_last_errno
    let s2 : State :=
      { s1 with
        n_last_errno := s1.n_last_errno + 1
        trace := s1.trace ++ [Event.session_last_errno e] }
    if e = LIBSSH2_ERROR_EAGAIN then
      { s2 with
        pending := s2.pending ++ [Pending.wait WaitType.wait_write Fn.doOpenFile]
        trace := s2.trace ++ [Event.async_wait WaitType.wait_write Fn.doOpenFile]
        control := Control.loop }
    else
      { s2 with
        trace := s2.trace ++ [Event.throw "Failed to open file"]
        control := Control.thrown "Failed to open file" }
  else
    { s1 with control := Control.call Fn.doReceiveFile }

/-- The function `impl::doSFTPInit` (lines 96-114). -/
def doSFTPInit (env : Env) (s : State) : State :=
  let p := env.sftp_init s.n_sftp_init
  let s1 : State :=
    { s with
      ctx := { s.ctx with sftp_session := p }
      n_sftp_init := s.n_sftp_init + 1
      trace := s.trace ++ [Event.call Fn.doSFTPInit, Event.sftp_init p] }
  if p = 0 then
    let e := env.session_last_errno s.n_last_errno
    let s2 : State :=
      { s1 with
        n_last_errno := s1.n_last_errno + 1
        trace := s1.trace ++ [Event.session_last_errno e] }
    if e = LIBSSH2_ERROR_EAGAIN then
      { s2 with
        pending := s2.pending ++ [Pending.wait WaitType.wait_write Fn.doSFTPInit]
        trace := s2.trace ++ [Event.async_wait WaitType.wait_write Fn.doSFTPInit]
        control := Control.loop }
    else
      { s2 with
        trace := s2.trace ++ [Event.throw "Failed to init sftp session"]
        control := Control.thrown "Failed to init sftp session" }
  else
    { s1 with control := Control.call Fn.doOpenFile }

/-- The function `impl::doAuthentication` (lines 116-132). -/
def doAuthentication (env : Env) (s : State) : State :=
  let rc := env.userauth_password s.n_userauth
  let s1 : State :=
    { s with
      n_userauth := s.n_userauth + 1
      trace := s.trace ++
        [Event.call Fn.doAuthentication,
         Event.userauth_password s.ctx.username s.ctx.password rc] }
  if rc = LIBSSH2_ERROR_EAGAIN then
    { s1 with
      pending := s1.pending ++ [Pending.wait WaitType.wait_write Fn.doAuthentication]
      trace := s1.trace ++ [Event.async_wait WaitType.wait_write Fn.doAuthentication]
      control := Control.loop }
  else if rc ≠ 0 then
    { s1 with
      trace := s1.trace ++ [Event.throw "Failed to authenticate"]
      control := Control.thrown "Failed to authenticate" }
  else
    { s1 with control := Control.call Fn.doSFTPInit }

/-- The function `impl::doSessionHandshake` (lines 134-157). -/
def doSessionHandshake (env : Env) (s : State) : State :=
  let rc := env.session_handshake s.n_handshake
  let s1 : State :=
    { s with
      n_handshake := s.n_handshake + 1
      trace := s.trace ++ [Event.call Fn.doSessionHandshake, Event.session_handshake rc] }
  if rc = LIBSSH2_ERROR_EAGAIN then
    { s1 with
      pending := s1.pending ++ [Pending.wait WaitType.wait_write Fn.doSessionHandshake]
      trace := s1.trace ++ [Event.async_wait WaitType.wait_write Fn.doSessionHandshake]
      control := Control.loop }
  else if rc ≠ 0 then
    { s1 with
      trace := s1.trace ++ [Event.throw "Failed to create ssh session"]
      control := Control.thrown "Failed to create ssh session" }
  else
    { s1 with
      trace := s1.trace ++ [Event.hostkey_hash]
      control := Control.call Fn.doAuthentication }

/-- The function `impl::connectHandler` (lines 159-174). -/
def connectHandler (env : Env) (s : State) : State :=
  let s0 : State := { s with trace := s.trace ++ [Event.call Fn.connectHandler] }
  match env.connect_ec with
  | some msg =>
    { s0 with
      trace := s0.trace ++ [Event.throw msg]
      control := Control.thrown msg }
  | none =>
    let p := env.session_init
    let s1 : State :=
      { s0 with
        ctx := { s0.ctx with session := p }
        trace := s0.trace ++ [Event.session_init p] }
    if p = 0 then
      { s1 with
        trace := s1.trace ++ [Event.throw "Init session failed"]
        control := Control.thrown "Init session failed" }
    else
      { s1 with
        trace := s1.trace ++ [Event.session_set_blocking p 0]
        control := Control.call Fn.doSessionHandshake }

/-- The function `impl::resolveHandler` (lines 176-188). -/
def resolveHandler (env : Env) (s : State) : State :=
  let s0 : State := { s with trace := s.trace ++ [Event.call Fn.resolveHandler] }
  match env.resolve_ec with
  | some msg =>
    { s0 with
      trace := s0.trace ++ [Event.throw msg]
      control := Control.thrown msg }
  | none =>
    if env.endpoints.isEmpty then
      { s0 with
        trace := s0.trace ++ [Event.throw "No endpoints"]
        control := Control.thrown "No endpoints" }
    else
      { s0 with
        ctx := { s0.ctx with socket := true }
        pending := s0.pending ++ [Pending.connect]
        trace := s0.trace ++ [Event.make_socket, Event.async_connect]
        control := Control.loop }

/-- The function `downloadFile` (lines 192-209): the state in which it returns
to `main`, which then enters `ioc.run()`.  `std::make_shared<impl::Context>()`
value-initialises the context, so the three raw pointers start null. -/
def downloadFile (req : Request) : State :=
  { ctx :=
      { resolver := true
        socket := false
        session := 0
        sftp_session := 0
        sftp_handle := 0
        target_host := req.target_host
        target_path := req.target_path
        output_file := []
        username := req.username
        password := req.password }
    control := Control.loop
    pending := [Pending.resolve]
    n_handshake := 0
    n_userauth := 0
    n_sftp_init := 0
    n_sftp_open := 0
    n_last_errno := 0
    n_sftp_read := 0
    n_wait := 0
    trace :=
      [Event.call Fn.downloadFile,
       Event.ofstream_open req.destination_path,
       Event.async_resolve req.target_host "22"] }

/-- One turn of `io_context::run`: with nothing outstanding `run` returns,
otherwise the oldest outstanding operation completes and its handler runs.  The
handler of a readiness wait is the lambda that throws on an error code and
otherwise calls the stage that registered it. -/
def runOne (env : Env) (s : State) : State :=
  match s.pending with
  | [] => { s with control := Control.finished }
  | Pending.resolve :: rest =>
    { s with
      pending := rest
      trace := s.trace ++ [Event.resolved env.resolve_ec env.endpoints]
      control := Control.call Fn.resolveHandler }
  | Pending.connect :: rest =>
    { s with
      pending := rest
      trace := s.trace ++ [Event.connected env.connect_ec]
      control := Control.call Fn.connectHandler }
  | Pending.wait w k :: rest =>
    let ec := env.wait_ec s.n_wait
    let s1 : State :=
      { s with
        pending := rest
        n_wait := s.n_wait + 1
        trace := s.trace ++ [Event.waited w k ec] }
    match ec with
    | some msg =>
      { s1 with
        trace := s1.trace ++ [Event.throw msg]
        control := Control.thrown msg }
    | none => { s1 with control := Control.call k }

/-- One step of the session.  An exception leaves `run` and `main`, and a
returned `run` ends the program: both are final.  `downloadFile` is called by
`main` and by no function of a session, so no step runs it. -/
def step (env : Env) (s : State) : State :=
  match s.control with
  | Control.finished => s
  | Control.thrown _ => s
  | Control.loop => runOne env s
  | Control.call Fn.downloadFile => s
  | Control.call Fn.resolveHandler => resolveHandler env s
  | Control.call Fn.connectHandler => connectHandler env s
  | Control.call Fn.doSessionHandshake => doSessionHandshake env s
  | Control.call Fn.doAuthentication => doAuthentication env s
  | Control.call Fn.doSFTPInit => doSFTPInit env s
  | Control.call Fn.doOpenFile => doOpenFile env s
  | Control.call Fn.doReceiveFile => doReceiveFile env s
  | Control.call Fn.doCleanup => doCleanup s

/-- The state `n` steps after `s`. -/
def runFrom (env : Env) (s : State) : Nat → State
  | 0 => s
  | n + 1 => step env (runFrom env s n)

/-- The session started by `downloadFile`, after `n` steps. -/
def run (env : Env) (req : Request) (n : Nat) : State :=
  runFrom env (downloadFile req) n

/-! ## Observations on traces and states -/

/-- The functions entered, in order. -/
def calls (t : List Event) : List Fn :=
  t.filterMap fun e => match e with
    | Event.call f => some f
    | _ => none

/-- The readiness waits registered, in order. -/
def waits (t : List Event) : List (WaitType × Fn) :=
  t.filterMap fun e => match e with
    | Event.async_wait w k => some (w, k)
    | _ => none

/-- The return values of the read attempts, in order. -/
def readAttempts (t : List Event) : List Int :=
  t.filterMap fun e => match e with
    | Event.sftp_read rc => some rc
    | _ => none

/-- Whether the event registers an asynchronous operation. -/
def isRegistration : Event → Bool
  | Event.async_resolve _ _ => true
  | Event.async_connect => true
  | Event.async_wait _ _ => true
  | _ => false

/-- Whether the event is the completion of an asynchronous operation. -/
def isCompletion : Event → Bool
  | Event.resolved _ _ => true
  | Event.connected _ => true
  | Event.waited _ _ _ => true
  | _ => false

/-- Whether the event is an entry of `doCleanup`. -/
def isCleanup : Event → Bool
  | Event.call Fn.doCleanup => true
  | _ => false

/-- Whether the event is an invocation of the completion handler. -/
def isHandler : Event → Bool
  | Event.handler => true
  | _ => false

/-- Whether the event is a read that returned a positive count below the
buffer capacity. -/
def isSubCapacityRead : Event → Bool
  | Event.sftp_read rc => decide (0 < rc ∧ rc < (BUFFER_SIZE : Int))
  | _ => false

/-- Whether the event releases a handle: the close of the file handle, the
shutdown of the SFTP session, the disconnect or the free of the session. -/
def isRelease : Event → Bool
  | Event.sftp_close _ => true
  | Event.sftp_shutdown _ => true
  | Event.session_disconnect _ => true
  | Event.session_free _ => true
  | _ => false

/-- Number of asynchronous operations registered so far. -/
def registrations (t : List Event) : Nat := t.countP isRegistration

/-- Number of asynchronous operations completed so far. -/
def completions (t : List Event) : Nat := t.countP isCompletion

/-- Number of times `doCleanup` was entered. -/
def cleanups (t : List Event) : Nat := t.countP isCleanup

/-- Number of times the completion handler was invoked. -/
def handlers (t : List Event) : Nat := t.countP isHandler

/-- Number of handle releases so far. -/
def releases (t : List Event) : Nat := t.countP isRelease

/-- The pairs of direction and continuation a readiness wait may have: read
readiness for `doReceiveFile`, write readiness for `doSessionHandshake`,
`doAuthentication`, `doSFTPInit` and `doOpenFile`, and nothing else. -/
def rightDirection : WaitType × Fn → Bool
  | (WaitType.wait_read, Fn.doReceiveFile) => true
  | (WaitType.wait_write, Fn.doSessionHandshake) => true
  | (WaitType.wait_write, Fn.doAuthentication) => true
  | (WaitType.wait_write, Fn.doSFTPInit) => true
  | (WaitType.wait_write, Fn.doOpenFile) => true
  | _ => false

/-- Some read returned a positive count below the buffer capacity. -/
def subCapacityRead (t : List Event) : Bool := t.any isSubCapacityRead

/-- The operation of stage `f` reports would-block in state `s`. -/
def wouldBlock (env : Env) (s : State) : Fn → Prop
  | Fn.doSessionHandshake => env.session_handshake s.n_handshake = LIBSSH2_ERROR_EAGAIN
  | Fn.doAuthentication => env.userauth_password s.n_userauth = LIBSSH2_ERROR_EAGAIN
  | Fn.doSFTPInit =>
    env.sftp_init s.n_sftp_init = 0 ∧
      env.session_last_errno s.n_last_errno = LIBSSH2_ERROR_EAGAIN
  | Fn.doOpenFile =>
    env.sftp_open s.n_sftp_open = 0 ∧
      env.session_last_errno s.n_last_errno = LIBSSH2_ERROR_EAGAIN
  | Fn.doReceiveFile => (env.sftp_read s.n_sftp_read).rc = LIBSSH2_ERROR_EAGAIN
  | _ => False

/-- The operation whose result function `f` examines in state `s` reports a
fault: a failure other than would-block. -/
def fault (env : Env) (s : State) : Fn → Prop
  | Fn.resolveHandler => env.resolve_ec ≠ none ∨ env.endpoints = []
  | Fn.connectHandler => env.connect_ec ≠ none ∨ env.session_init = 0
  | Fn.doSessionHandshake =>
    env.session_handshake s.n_handshake ≠ LIBSSH2_ERROR_EAGAIN ∧
      env.session_handshake s.n_handshake ≠ 0
  | Fn.doAuthentication =>
    env.userauth_password s.n_userauth ≠ LIBSSH2_ERROR_EAGAIN ∧
      env.userauth_password s.n_userauth ≠ 0
  | Fn.doSFTPInit =>
    env.sftp_init s.n_sftp_init = 0 ∧
      env.session_last_errno s.n_last_errno ≠ LIBSSH2_ERROR_EAGAIN
  | Fn.doOpenFile =>
    env.sftp_open s.n_sftp_open = 0 ∧
      env.session_last_errno s.n_last_errno ≠ LIBSSH2_ERROR_EAGAIN
  | Fn.doReceiveFile =>
    (env.sftp_read s.n_sftp_read).rc < 0 ∧
      (env.sftp_read s.n_sftp_read).rc ≠ LIBSSH2_ERROR_EAGAIN
  | _ => False

/-! ## Invariants of a session -/

/-- Single flight: at most one operation is outstanding, none while a function
of the session runs or after the session ended, and the outstanding operations
are the registered ones that have not completed. -/
def SingleFlight (s : State) : Prop :=
  s.pending.length ≤ 1 ∧ (s.control ≠ Control.loop → s.pending = []) ∧
    completions s.trace + s.pending.length = registrations s.trace

/-- Teardown bookkeeping: the handler is invoked as often as `doCleanup` is
entered, at most once, after which nothing is left to run; a read below
capacity is what leads to `doCleanup`. -/
def TeardownOnce (s : State) : Prop :=
  handlers s.trace = cleanups s.trace ∧ cleanups s.trace ≤ 1 ∧
  (cleanups s.trace = 1 →
    (s.control = Control.loop ∨ s.control = Control.finished) ∧ s.pending = []) ∧
  (subCapacityRead s.trace = true ↔
    (s.control = Control.call Fn.doCleanup ∨ cleanups s.trace = 1)) ∧
  (∀ w, Pending.wait w Fn.doCleanup ∉ s.pending)

/-! ## The stages of the pipeline -/

/-- The stages of the pipeline. -/
inductive Stage
  | resolve
  | connect
  | handshake
  | authentication
  | subsystemInit
  | fileOpen
  | streamingRead
  | teardown
  deriving DecidableEq

/-- The pipeline, in order. -/
def pipeline : List Stage :=
  [Stage.resolve, Stage.connect, Stage.handshake, Stage.authentication, Stage.subsystemInit,
   Stage.fileOpen, Stage.streamingRead, Stage.teardown]

/-- Position of a stage in the pipeline. -/
def Stage.index : Stage → Nat
  | Stage.resolve => 0
  | Stage.connect => 1
  | Stage.handshake => 2
  | Stage.authentication => 3
  | Stage.subsystemInit => 4
  | Stage.fileOpen => 5
  | Stage.streamingRead => 6
  | Stage.teardown => 7

/-- The stage after a stage. -/
def Stage.next : Stage → Option Stage
  | Stage.resolve => some Stage.connect
  | Stage.connect => some Stage.handshake
  | Stage.handshake => some Stage.authentication
  | Stage.authentication => some Stage.subsystemInit
  | Stage.subsystemInit => some Stage.fileOpen
  | Stage.fileOpen => some Stage.streamingRead
  | Stage.streamingRead => some Stage.teardown
  | Stage.teardown => none

/-- The stage whose operation an event starts or reports on: a stage is
entered when its operation is started.  `libssh2_session_init` belongs to the
connect stage.  Entries of the functions other than `doCleanup`, the calls
`libssh2_session_set_blocking`, `libssh2_hostkey_hash` and
`libssh2_session_last_errno`, the creation of the sink and of the socket, the
sink writes, the readiness waits and the exceptions start no stage. -/
def stageOf : Event → Option Stage
  | Event.async_resolve _ _ => some Stage.resolve
  | Event.resolved _ _ => some Stage.resolve
  | Event.async_connect => some Stage.connect
  | Event.connected _ => some Stage.connect
  | Event.session_init _ => some Stage.connect
  | Event.session_handshake _ => some Stage.handshake
  | Event.userauth_password _ _ _ => some Stage.authentication
  | Event.sftp_init _ => some Stage.subsystemInit
  | Event.sftp_open _ _ => some Stage.fileOpen
  | Event.sftp_read _ => some Stage.streamingRead
  | Event.call Fn.doCleanup => some Stage.teardown
  | Event.sftp_close _ => some Stage.teardown
  | Event.sftp_shutdown _ => some Stage.teardown
  | Event.session_disconnect _ => some Stage.teardown
  | Event.session_free _ => some Stage.teardown
  | Event.handler => some Stage.teardown
  | _ => none

/-- Whether the event reports that the operation of its stage completed: the
result on which the code goes on to the next stage. -/
def reportsCompletion : Event → Bool
  | Event.resolved ec endpoints => ec.isNone && !endpoints.isEmpty
  | Event.connected ec => ec.isNone
  | Event.session_init p => decide (p ≠ 0)
  | Event.session_handshake rc => decide (rc = 0)
  | Event.userauth_password _ _ rc => decide (rc = 0)
  | Event.sftp_init p => decide (p ≠ 0)
  | Event.sftp_open _ p => decide (p ≠ 0)
  | Event.sftp_read rc => decide (0 < rc ∧ rc < (BUFFER_SIZE : Int))
  | _ => false

/-- The stage events of a trace, each as its stage and whether it reports
completion. -/
def marks (t : List Event) : List (Stage × Bool) :=
  t.filterMap fun e => (stageOf e).map fun st => (st, reportsCompletion e)

/-- The stages entered, in order. -/
def stages (t : List Event) : List Stage := (marks t).map Prod.fst

/-- Collapse consecutive repetitions of a stage. -/
def collapse : List Stage → List Stage
  | [] => []
  | [a] => [a]
  | a :: b :: l => if a = b then collapse (b :: l) else a :: collapse (b :: l)

/-- A stage event may come directly after another: it is of the same stage, or
it is of the next stage and the one before reported completion. -/
def Follows (a b : Stage × Bool) : Prop :=
  a.1 = b.1 ∨ (a.2 = true ∧ a.1.next = some b.1)

/-- After the stage event `last`, stage `st` may be entered. -/
def mayEnter (last : Stage × Bool) (st : Stage) : Prop :=
  last.1 = st ∨ (last.2 = true ∧ last.1.next = some st)

/-- What a function about to run relies on, given the last stage event. -/
def Expecting (env : Env) (last : Stage × Bool) : Fn → Prop
  | Fn.downloadFile => True
  | Fn.resolveHandler =>
    last = (Stage.resolve, env.resolve_ec.isNone && !env.endpoints.isEmpty)
  | Fn.connectHandler => last = (Stage.connect, env.connect_ec.isNone)
  | Fn.doSessionHandshake => mayEnter last Stage.handshake
  | Fn.doAuthentication => mayEnter last Stage.authentication
  | Fn.doSFTPInit => mayEnter last Stage.subsystemInit
  | Fn.doOpenFile => mayEnter last Stage.fileOpen
  | Fn.doReceiveFile => mayEnter last Stage.streamingRead
  | Fn.doCleanup => mayEnter last Stage.teardown

/-- What an outstanding operation relies on, given the last stage event. -/
def ExpectingPending (env : Env) (last : Stage × Bool) : Pending → Prop
  | Pending.resolve => last.1 = Stage.resolve
  | Pending.connect => last.1 = Stage.connect
  | Pending.wait _ k => Expecting env last k ∧ k ≠ Fn.resolveHandler ∧ k ≠ Fn.connectHandler

/-- The stage events so far are in pipeline order and the session is about to
continue in step with them. -/
def StageOrder (env : Env) (s : State) : Prop :=
  ∃ last, (marks s.trace).getLast? = some last ∧
    (marks s.trace).head? = some (Stage.resolve, false) ∧
    List.Chain' Follows (marks s.trace) ∧
    (∀ f, s.control = Control.call f → Expecting env last f) ∧
    (∀ p ∈ s.pending, ExpectingPending env last p)

/-! ## The remote file as the read primitive serves it -/

/-- Number of bytes the first `k` calls of the read primitive delivered. -/
def delivered (env : Env) : Nat → Nat
  | 0 => 0
  | k + 1 => delivered env k + (env.sftp_read k).rc.toNat

/-- The read primitive serves the file `F` in order: each call reports
would-block, or delivers the next `min BUFFER_SIZE remaining` bytes. -/
def Serves (F : List Byte) (env : Env) : Prop :=
  ∀ k, (env.sftp_read k).rc = LIBSSH2_ERROR_EAGAIN ∨
    ((env.sftp_read k).rc = ((min BUFFER_SIZE (F.length - delivered env k) : Nat) : Int) ∧
      (env.sftp_read k).data = (F.drop (delivered env k)).take BUFFER_SIZE)

/-- The sink holds what was delivered so far, and all of `F` was delivered once
teardown is reached. -/
def SinkInv (F : List Byte) (env : Env) (s : State) : Prop :=
  s.ctx.output_file = F.take (delivered env s.n_sftp_read) ∧
  ((s.control = Control.call Fn.doCleanup ∨ 0 < handlers s.trace) →
    F.length ≤ delivered env s.n_sftp_read)

/-- What the `k`-th call of the read primitive returns when it serves `F` as
successive chunks of `min BUFFER_SIZE remaining` bytes without would-block,
and 0 bytes once the file is exhausted. -/
def chunkRead (F : List Byte) (k : Nat) : ReadResult :=
  { rc := ((min BUFFER_SIZE (F.length - BUFFER_SIZE * k) : Nat) : Int)
    data := (F.drop (BUFFER_SIZE * k)).take BUFFER_SIZE }

/-- The read primitive serves `F` without would-block. -/
def ServesUnblocked (F : List Byte) (env : Env) : Prop :=
  ∀ k, env.sftp_read k = chunkRead F k

/-- The events of the first `j` reads of `F`, all of full capacity. -/
def fullReads (F : List Byte) : Nat → List Event
  | 0 => []
  | j + 1 =>
    fullReads F j ++
      [Event.call Fn.doReceiveFile, Event.sftp_read (BUFFER_SIZE : Int),
       Event.write ((F.drop (BUFFER_SIZE * j)).take BUFFER_SIZE)]

/-- The state after `j` full-capacity reads of `F`, started in `s`. -/
def afterFullReads (F : List Byte) (s : State) (j : Nat) : State :=
  { s with
    ctx := { s.ctx with output_file := s.ctx.output_file ++ F.take (BUFFER_SIZE * j) }
    n_sftp_read := j
    trace := s.trace ++ fullReads F j
    control := Control.call Fn.doReceiveFile }

/-- The state in which the read loop hands over to `doCleanup`. -/
def afterLastRead (F : List Byte) (s : State) : State :=
  { s with
    ctx := { s.ctx with output_file := s.ctx.output_file ++ F }
    n_sftp_read := F.length / BUFFER_SIZE + 1
    trace := s.trace ++ fullReads F (F.length / BUFFER_SIZE) ++
      [Event.call Fn.doReceiveFile, Event.sftp_read ((F.length % BUFFER_SIZE : Nat) : Int),
       Event.write (F.drop (BUFFER_SIZE * (F.length / BUFFER_SIZE)))]
    control := Control.call Fn.doCleanup }

/-- The state in which the read loop stops on a zero-byte read. -/
def afterZeroRead (F : List Byte) (s : State) : State :=
  { s with
    ctx := { s.ctx with output_file := s.ctx.output_file ++ F }
    n_sftp_read := F.length / BUFFER_SIZE + 1
    trace := s.trace ++ fullReads F (F.length / BUFFER_SIZE) ++
      [Event.call Fn.doReceiveFile, Event.sftp_read 0]
    control := Control.loop }

/-! ## Concrete sessions -/

/-- The request of the scenario in the specification. -/
def exampleRequest : Request :=
  { target_host := "h"
    target_path := "/remote/f"
    destination_path := "/local/f2"
    username := "u"
    password := "p" }

/-- A server on which every stage completes at its first attempt and the read
primitive serves `F` without would-block. -/
def fixture (F : List Byte) : Env :=
  { resolve_ec := none
    endpoints := ["127.0.0.1:22"]
    connect_ec := none
    session_init := 1
    session_handshake := fun _ => 0
    userauth_password := fun _ => 0
    sftp_init := fun _ => 2
    sftp_open := fun _ => 3
    session_last_errno := fun _ => 0
    sftp_read := chunkRead F
    wait_ec := fun _ => none }

/-- Bytes served before the `k`-th call when the calls marked by `blocked`
report would-block. -/
def servedBefore (F : List Byte) (blocked : Nat → Bool) : Nat → Nat
  | 0 => 0
  | k + 1 =>
    if blocked k then servedBefore F blocked k
    else servedBefore F blocked k + min BUFFER_SIZE (F.length - servedBefore F blocked k)

/-- The read primitive of a server that serves `F` and reports would-block at
the calls marked by `blocked`. -/
def serveFile (F : List Byte) (blocked : Nat → Bool) (k : Nat) : ReadResult :=
  if blocked k then { rc := LIBSSH2_ERROR_EAGAIN, data := [] }
  else
    { rc := ((min BUFFER_SIZE (F.length - servedBefore F blocked k) : Nat) : Int)
      data := (F.drop (servedBefore F blocked k)).take BUFFER_SIZE }

/-- A server on which every stage, the read included, reports would-block at
its first attempt and at every second read. -/
def slowFixture (F : List Byte) : Env :=
  { resolve_ec := none
    endpoints := ["127.0.0.1:22"]
    connect_ec := none
    session_init := 1
    session_handshake := fun k => if k = 0 then LIBSSH2_ERROR_EAGAIN else 0
    userauth_password := fun k => if k = 0 then LIBSSH2_ERROR_EAGAIN else 0
    sftp_init := fun k => if k = 0 then 0 else 2
    sftp_open := fun k => if k = 0 then 0 else 3
    session_last_errno := fun _ => LIBSSH2_ERROR_EAGAIN
    sftp_read := serveFile F (fun k => k % 2 = 0)
    wait_ec := fun _ => none }

/-- A server whose name does not resolve. -/
def resolveFault : Env :=
  { fixture [] with resolve_ec := some "Host not found" }

/-- A resolution that succeeds with no endpoint. -/
def noEndpoints : Env :=
  { fixture [] with endpoints := [] }

/-! ## Counting along a trace -/

@[simp]
theorem registrations_append (t u : List Event) :
    registrations (t ++ u) = registrations t + registrations u := List.countP_append _ _ _

@[simp]
theorem registrations_cons (e : Event) (t : List Event) :
    registrations (e :: t) = registrations t + (if isRegistration e then 1 else 0) :=
  List.countP_cons _ _ _

@[simp]
theorem registrations_nil : registrations [] = 0 := rfl

@[simp]
theorem completions_append (t u : List Event) :
    completions (t ++ u) = completions t + completions u := List.countP_append _ _ _

@[simp]
theorem completions_cons (e : Event) (t : List Event) :
    completions (e :: t) = completions t + (if isCompletion e then 1 else 0) :=
  List.countP_cons _ _ _

@[simp]
theorem completions_nil : completions [] = 0 := rfl

@[simp]
theorem cleanups_append (t u : List Event) :
    cleanups (t ++ u) = cleanups t + cleanups u := List.countP_append _ _ _

@[simp]
theorem cleanups_cons (e : Event) (t : List Event) :
    cleanups (e :: t) = cleanups t + (if isCleanup e then 1 else 0) := List.countP_cons _ _ _

@[simp]
theorem cleanups_nil : cleanups [] = 0 := rfl

@[simp]
theorem handlers_append (t u : List Event) :
    handlers (t ++ u) = handlers t + handlers u := List.countP_append _ _ _

@[simp]
theorem handlers_cons (e : Event) (t : List Event) :
    handlers (e :: t) = handlers t + (if isHandler e then 1 else 0) := List.countP_cons _ _ _

@[simp]
theorem handlers_nil : handlers [] = 0 := rfl

@[simp]
theorem subCapacityRead_append (t u : List Event) :
    subCapacityRead (t ++ u) = (subCapacityRead t || subCapacityRead u) := List.any_append

@[simp]
theorem subCapacityRead_cons (e : Event) (t : List Event) :
    subCapacityRead (e :: t) = (isSubCapacityRead e || subCapacityRead t) := List.any_cons

@[simp]
theorem subCapacityRead_nil : subCapacityRead [] = false := rfl

@[simp]
theorem marks_append (t u : List Event) : marks (t ++ u) = marks t ++ marks u :=
  List.filterMap_append _ _ _

@[simp]
theorem marks_nil : marks [] = [] := rfl

@[simp]
theorem marks_cons (e : Event) (t : List Event) :
    marks (e :: t) =
      (match stageOf e with
        | some st => [(st, reportsCompletion e)]
        | none => []) ++ marks t := by
  cases h : stageOf e <;> simp [marks, List.filterMap_cons, h]

theorem head?_append_of_some {α : Type} (l m : List α) (a : α) (h : l.head? = some a) :
    (l ++ m).head? = some a := by
  cases l with
  | nil => simp at h
  | cons b l => simpa using h

/-! ## Running a session -/

theorem runFrom_add (env : Env) (s : State) (n m : Nat) :
    runFrom env s (n + m) = runFrom env (runFrom env s n) m := by
  induction m with
  | zero => rfl
  | succ m ih => rw [← Nat.add_assoc, runFrom, ih, runFrom]

theorem run_succ (env : Env) (req : Request) (n : Nat) :
    run env req (n + 1) = step env (run env req n) := rfl

theorem run_add (env : Env) (req : Request) (n m : Nat) :
    run env req (n + m) = runFrom env (run env req n) m := runFrom_add env _ n m

theorem step_thrown (env : Env) (s : State) (msg : String)
    (h : s.control = Control.thrown msg) : step env s = s := by
  simp [step, h]

theorem runFrom_thrown (env : Env) (s : State) (msg : String)
    (h : s.control = Control.thrown msg) (n : Nat) : runFrom env s n = s := by
  induction n with
  | zero => rfl
  | succ n ih => rw [runFrom, ih, step_thrown env s msg h]

theorem calls_step_call (env : Env) (s : State) (f : Fn) (hc : s.control = Control.call f)
    (hf : f ≠ Fn.downloadFile) : calls (step env s).trace = calls s.trace ++ [f] := by
  cases f
  case downloadFile => exact absurd rfl hf
  case resolveHandler =>
    simp only [step, hc, resolveHandler]
    split
    · simp [calls]
    · split <;> simp [calls]
  case connectHandler =>
    simp only [step, hc, connectHandler]
    split
    · simp [calls]
    · split <;> simp [calls]
  case doSessionHandshake =>
    simp only [step, hc, doSessionHandshake]
    split_ifs <;> simp [calls]
  case doAuthentication =>
    simp only [step, hc, doAuthentication]
    split_ifs <;> simp [calls]
  case doSFTPInit =>
    simp only [step, hc, doSFTPInit]
    split_ifs <;> simp [calls]
  case doOpenFile =>
    simp only [step, hc, doOpenFile]
    split_ifs <;> simp [calls]
  case doReceiveFile =>
    simp only [step, hc, doReceiveFile]
    split_ifs <;> simp [calls]
  case doCleanup =>
    simp [step, hc, doCleanup, calls]

/-! ## Single flight -/

theorem singleFlight_downloadFile (req : Request) : SingleFlight (downloadFile req) := by
  simp [SingleFlight, downloadFile, isCompletion, isRegistration]

theorem singleFlight_step (env : Env) (s : State) (h : SingleFlight s) :
    SingleFlight (step env s) := by
  obtain ⟨h1, h2, h3⟩ := h
  cases hc : s.control with
  | finished => simp_all [step, SingleFlight]
  | thrown msg => simp_all [step, SingleFlight]
  | loop =>
    simp only [step, hc, runOne]
    repeat' split
    all_goals simp_all [SingleFlight, isCompletion, isRegistration]
  | call f =>
    have hp : s.pending = [] := h2 (by simp [hc])
    cases f <;>
      simp only [step, hc, resolveHandler, connectHandler, doSessionHandshake, doAuthentication,
        doSFTPInit, doOpenFile, doReceiveFile, doCleanup]
    all_goals repeat' split
    all_goals simp_all [SingleFlight, isCompletion, isRegistration]

theorem singleFlight_run (env : Env) (req : Request) (n : Nat) :
    SingleFlight (run env req n) := by
  induction n with
  | zero => exact singleFlight_downloadFile req
  | succ n ih => exact singleFlight_step env _ ih

theorem registrations_step (env : Env) (s : State) :
    registrations (step env s).trace ≤ registrations s.trace + 1 ∧
    (registrations (step env s).trace = registrations s.trace + 1 →
      (step env s).control = Control.loop) := by
  cases hc : s.control with
  | finished => simp [step, hc]
  | thrown msg => simp [step, hc]
  | loop =>
    simp only [step, hc, runOne]
    repeat' split
    all_goals simp [isRegistration, hc]
  | call f =>
    cases f <;>
      simp only [step, hc, resolveHandler, connectHandler, doSessionHandshake, doAuthentication,
        doSFTPInit, doOpenFile, doReceiveFile, doCleanup]
    all_goals repeat' split
    all_goals simp [isRegistration, hc]

/-! ## Teardown happens at most once -/

theorem teardownOnce_downloadFile (req : Request) : TeardownOnce (downloadFile req) := by
  simp [TeardownOnce, downloadFile, isCleanup, isHandler, isSubCapacityRead]

theorem teardownOnce_step (env : Env) (s : State) (hs : SingleFlight s) (h : TeardownOnce s) :
    TeardownOnce (step env s) := by
  obtain ⟨h1, h2, h3, h4, h5⟩ := h
  cases hc : s.control with
  | finished => simp_all [step, TeardownOnce]
  | thrown msg => simp_all [step, TeardownOnce]
  | loop =>
    cases hp : s.pending with
    | nil => simp_all [step, runOne, TeardownOnce]
    | cons p rest =>
      have hr : rest = [] := by
        have := hs.1; rw [hp] at this; simpa using this
      have h0 : cleanups s.trace = 0 := by
        rcases Nat.lt_or_ge (cleanups s.trace) 1 with h | h
        · omega
        · have := (h3 (by omega)).2
          simp [hp] at this
      have hh : handlers s.trace = 0 := by omega
      have hsub : subCapacityRead s.trace = false := by
        cases hb : subCapacityRead s.trace with
        | false => rfl
        | true => have := h4.1 hb; simp [hc, h0] at this
      cases p with
      | resolve =>
        simp [step, hc, runOne, hp, TeardownOnce, h0, hh, hsub, hr, isCleanup, isHandler,
          isSubCapacityRead]
      | connect =>
        simp [step, hc, runOne, hp, TeardownOnce, h0, hh, hsub, hr, isCleanup, isHandler,
          isSubCapacityRead]
      | wait w k =>
        have hk : k ≠ Fn.doCleanup := by
          rintro rfl
          exact h5 w (by simp [hp])
        simp only [step, hc, runOne, hp]
        split <;>
          simp [TeardownOnce, h0, hh, hsub, hr, isCleanup, isHandler, isSubCapacityRead, hk]
  | call f =>
    have hp : s.pending = [] := hs.2.1 (by simp [hc])
    have h0 : cleanups s.trace = 0 := by
      rcases Nat.lt_or_ge (cleanups s.trace) 1 with h | h
      · omega
      · have := h3 (by omega)
        simp [hc] at this
    have hh : handlers s.trace = 0 := by omega
    have hsub : subCapacityRead s.trace = true ↔ f = Fn.doCleanup := by
      rw [h4]; simp [hc, h0]
    cases f <;>
      simp only [step, hc, resolveHandler, connectHandler, doSessionHandshake, doAuthentication,
        doSFTPInit, doOpenFile, doReceiveFile, doCleanup]
    all_goals repeat' split
    all_goals simp at hsub
    all_goals
      simp [TeardownOnce, h0, hh, hsub, hp, hc, isCleanup, isHandler, isSubCapacityRead]
    all_goals omega

theorem teardownOnce_run (env : Env) (req : Request) (n : Nat) :
    TeardownOnce (run env req n) := by
  induction n with
  | zero => exact teardownOnce_downloadFile req
  | succ n ih => exact teardownOnce_step env _ (singleFlight_run env req n) ih

theorem fault_throws (env : Env) (s : State) (f : Fn) (hc : s.control = Control.call f)
    (hf : fault env s f) : ∃ msg, (step env s).control = Control.thrown msg := by
  cases f <;> simp only [fault] at hf
  · simp only [step, hc, resolveHandler]
    rcases hf with hf | hf
    · cases h : env.resolve_ec with
      | none => exact absurd h hf
      | some msg => exact ⟨msg, rfl⟩
    · cases h : env.resolve_ec with
      | none => exact ⟨"No endpoints", by simp [hf]⟩
      | some msg => exact ⟨msg, rfl⟩
  · simp only [step, hc, connectHandler]
    rcases hf with hf | hf
    · cases h : env.connect_ec with
      | none => exact absurd h hf
      | some msg => exact ⟨msg, rfl⟩
    · cases h : env.connect_ec with
      | none => exact ⟨"Init session failed", by simp [hf]⟩
      | some msg => exact ⟨msg, rfl⟩
  · exact ⟨"Failed to create ssh session", by simp [step, hc, doSessionHandshake, hf.1, hf.2]⟩
  · exact ⟨"Failed to authenticate", by simp [step, hc, doAuthentication, hf.1, hf.2]⟩
  · exact ⟨"Failed to init sftp session", by simp [step, hc, doSFTPInit, hf.1, hf.2]⟩
  · exact ⟨"Failed to open file", by simp [step, hc, doOpenFile, hf.1, hf.2]⟩
  · exact ⟨"Failed to receive file", by
      have h1 : ¬ 0 < (env.sftp_read s.n_sftp_read).rc := by omega
      simp [step, hc, doReceiveFile, hf.1, hf.2, h1]⟩

/-! ## The stages come in pipeline order -/

theorem stageOrder_downloadFile (env : Env) (req : Request) :
    StageOrder env (downloadFile req) := by
  refine ⟨(Stage.resolve, false), ?_⟩
  simp [downloadFile, stageOf, reportsCompletion, ExpectingPending]

theorem stageOrder_step (env : Env) (s : State) (hs : SingleFlight s) (h : StageOrder env s) :
    StageOrder env (step env s) := by
  obtain ⟨last, hl, hh, hch, hctl, hpend⟩ := h
  cases hc : s.control with
  | finished =>
    have : step env s = s := by simp [step, hc]
    rw [this]; exact ⟨last, hl, hh, hch, hctl, hpend⟩
  | thrown msg =>
    have : step env s = s := by simp [step, hc]
    rw [this]; exact ⟨last, hl, hh, hch, hctl, hpend⟩
  | loop =>
    cases hp : s.pending with
    | nil =>
      exact ⟨last, by simp [step, hc, runOne, hp, hl, hh, hch]⟩
    | cons p rest =>
      have hr : rest = [] := by
        have := hs.1; rw [hp] at this; simpa using this
      have he := hpend p (by simp [hp])
      cases p <;> simp only [step, hc, runOne, hp]
      all_goals repeat' split
      all_goals simp only [ExpectingPending] at he
      all_goals simp only [StageOrder]
      all_goals
        simp [stageOf, reportsCompletion, hl, head?_append_of_some _ _ _ hh, hch, hr,
          List.chain'_append, Follows, he, hh]
      all_goals simp [Expecting]
  | call f =>
    have hp : s.pending = [] := hs.2.1 (by simp [hc])
    have he := hctl f hc
    cases f <;>
      simp only [step, hc, resolveHandler, connectHandler, doSessionHandshake, doAuthentication,
        doSFTPInit, doOpenFile, doReceiveFile, doCleanup]
    all_goals repeat' split
    all_goals simp only [Expecting, mayEnter] at he
    all_goals simp only [StageOrder]
    all_goals
      simp [stageOf, reportsCompletion, hl, head?_append_of_some _ _ _ hh, hch, hp,
        List.chain'_append, Follows, ExpectingPending, Expecting, mayEnter, *]
    all_goals first
      | rfl
      | exact ⟨by simpa using ‹¬ _ ≠ (0 : Int)›, rfl⟩
      | exact ⟨by omega, rfl⟩

theorem stageOrder_run (env : Env) (req : Request) (n : Nat) :
    StageOrder env (run env req n) := by
  induction n with
  | zero => exact stageOrder_downloadFile env req
  | succ n ih => exact stageOrder_step env _ (singleFlight_run env req n) ih

theorem pipeline_drop_index (a : Stage) :
    ∃ rest, pipeline.drop a.index = a :: rest ∧
      ∀ b, a.next = some b → rest = pipeline.drop b.index := by
  cases a <;> refine ⟨_, rfl, ?_⟩ <;> intro b hb <;> simp only [Stage.next] at hb
  all_goals first
    | (cases hb; rfl)
    | (exact absurd hb (by simp))

theorem next_ne_self (a b : Stage) (h : a.next = some b) : a ≠ b := by
  cases a <;> simp only [Stage.next] at h <;> cases h <;> simp

theorem collapse_chain (l : List Stage) :
    ∀ a, List.Chain (fun x y => x = y ∨ x.next = some y) a l →
      collapse (a :: l) <+: pipeline.drop a.index := by
  induction l with
  | nil =>
    intro a _
    obtain ⟨rest, h, _⟩ := pipeline_drop_index a
    exact ⟨rest, by simp [collapse, h]⟩
  | cons b l ih =>
    intro a h
    rw [List.chain_cons] at h
    obtain ⟨hab, hl⟩ := h
    rcases hab with hab | hab
    · subst hab
      simpa [collapse] using ih a hl
    · have hne := next_ne_self a b hab
      obtain ⟨rest, h1, h2⟩ := pipeline_drop_index a
      have h3 := ih b hl
      rw [← h2 b hab] at h3
      obtain ⟨u, hu⟩ := h3
      exact ⟨u, by simp [collapse, hne, h1, ← hu]⟩

theorem follows_stage (a b : Stage × Bool) (h : Follows a b) :
    a.1 = b.1 ∨ a.1.next = some b.1 := by
  rcases h with h | h
  · exact Or.inl h
  · exact Or.inr h.2

theorem next_index (a b : Stage) (h : a = b ∨ a.next = some b) : a.index ≤ b.index := by
  rcases h with h | h
  · subst h; exact le_refl _
  · cases a <;> simp only [Stage.next] at h <;> cases h <;> decide

/-! ## The sink during the read loop -/

theorem take_bufferAfter (r : ReadResult) (n : Nat) (h : n ≤ r.data.length)
    (hb : r.data.length ≤ BUFFER_SIZE) : (bufferAfter r).take n = r.data.take n := by
  unfold bufferAfter
  rw [List.take_take, min_eq_left (le_trans h hb), List.take_append_of_le_length h]

theorem sinkInv_downloadFile (F : List Byte) (env : Env) (req : Request) :
    SinkInv F env (downloadFile req) := by
  simp [SinkInv, downloadFile, delivered, isHandler]

theorem sinkInv_doReceiveFile (F : List Byte) (env : Env) (s : State) (hF : Serves F env)
    (h : SinkInv F env s) : SinkInv F env (doReceiveFile env s) := by
  obtain ⟨h1, h2⟩ := h
  have h2 : 0 < handlers s.trace → F.length ≤ delivered env s.n_sftp_read :=
    fun hh => h2 (Or.inr hh)
  rcases hF s.n_sftp_read with hb | ⟨hrc, hdata⟩
  · simp [doReceiveFile, hb, LIBSSH2_ERROR_EAGAIN, SinkInv, delivered, isHandler, h1]
    exact h2
  · have hlen : (env.sftp_read s.n_sftp_read).data.length =
        min BUFFER_SIZE (F.length - delivered env s.n_sftp_read) := by
      rw [hdata, List.length_take, List.length_drop]
    have hnat : (env.sftp_read s.n_sftp_read).rc.toNat =
        min BUFFER_SIZE (F.length - delivered env s.n_sftp_read) := by
      rw [hrc]; exact Int.toNat_ofNat _
    have hne : (env.sftp_read s.n_sftp_read).rc ≠ LIBSSH2_ERROR_EAGAIN := by
      rw [hrc]; simp only [LIBSSH2_ERROR_EAGAIN]; omega
    have hnn : ¬ (env.sftp_read s.n_sftp_read).rc < 0 := by
      rw [hrc]; omega
    have htake : (bufferAfter (env.sftp_read s.n_sftp_read)).take
          (env.sftp_read s.n_sftp_read).rc.toNat =
        (F.drop (delivered env s.n_sftp_read)).take
          (min BUFFER_SIZE (F.length - delivered env s.n_sftp_read)) := by
      rw [hnat, take_bufferAfter _ _ (le_of_eq hlen.symm) (by rw [hlen]; exact min_le_left _ _),
        hdata, List.take_take]
      congr 1
      simp
    unfold doReceiveFile
    simp only [hne, hnn, if_false, htake]
    split_ifs with hpos hfull
    · refine ⟨?_, ?_⟩
      · simp only [delivered, hnat, h1]
        rw [List.take_add]
      · simp only [delivered, hnat, handlers_append, handlers_cons, handlers_nil, isHandler]
        intro hh
        have := h2 (by simpa using hh)
        omega
    · refine ⟨?_, ?_⟩
      · simp only [delivered, hnat, h1]
        rw [List.take_add]
      · simp only [delivered, hnat]
        intro _
        rw [hrc] at hpos hfull
        have : BUFFER_SIZE = 4096 := rfl
        omega
    · refine ⟨?_, ?_⟩
      · simp only [delivered, hnat, h1]
        rw [hrc] at hpos
        have : min BUFFER_SIZE (F.length - delivered env s.n_sftp_read) = 0 := by omega
        rw [this, Nat.add_zero]
      · simp only [delivered, hnat, handlers_append, handlers_cons, handlers_nil, isHandler]
        intro hh
        have := h2 (by simpa using hh)
        omega

theorem sinkInv_step (F : List Byte) (env : Env) (s : State) (hF : Serves F env)
    (ht : TeardownOnce s) (h : SinkInv F env s) : SinkInv F env (step env s) := by
  obtain ⟨h1, h2⟩ := h
  cases hc : s.control with
  | finished => simp_all [step, SinkInv]
  | thrown msg => simp_all [step, SinkInv]
  | loop =>
    cases hp : s.pending with
    | nil => simp_all [step, runOne, SinkInv]
    | cons p rest =>
      cases p with
      | resolve => simp_all [step, runOne, SinkInv, isHandler]
      | connect => simp_all [step, runOne, SinkInv, isHandler]
      | wait w k =>
        have hk : k ≠ Fn.doCleanup := by
          rintro rfl
          exact ht.2.2.2.2 w (by simp [hp])
        simp only [step, hc, runOne, hp]
        split <;> simp_all [SinkInv, isHandler]
  | call f =>
    cases f
    case doReceiveFile =>
      simp only [step, hc]
      exact sinkInv_doReceiveFile F env s hF ⟨h1, h2⟩
    all_goals
      simp only [step, hc, resolveHandler, connectHandler, doSessionHandshake, doAuthentication,
        doSFTPInit, doOpenFile, doCleanup]
    all_goals repeat' split
    all_goals simp_all [SinkInv, isHandler]

theorem sinkInv_run (F : List Byte) (env : Env) (req : Request) (hF : Serves F env) (n : Nat) :
    SinkInv F env (run env req n) := by
  induction n with
  | zero => exact sinkInv_downloadFile F env req
  | succ n ih => exact sinkInv_step F env _ hF (teardownOnce_run env req n) ih

theorem delivered_serveFile (F : List Byte) (blocked : Nat → Bool) (env : Env)
    (h : env.sftp_read = serveFile F blocked) (k : Nat) :
    delivered env k = servedBefore F blocked k := by
  induction k with
  | zero => rfl
  | succ k ih =>
    rw [delivered, servedBefore, ih, h]
    cases hb : blocked k
    · simp only [serveFile, hb, Bool.false_eq_true, if_false, Int.toNat_ofNat]
    · simp [serveFile, hb, LIBSSH2_ERROR_EAGAIN]

theorem serves_serveFile (F : List Byte) (blocked : Nat → Bool) (env : Env)
    (h : env.sftp_read = serveFile F blocked) : Serves F env := by
  intro k
  rw [delivered_serveFile F blocked env h k, h]
  cases hb : blocked k
  · right; simp [serveFile, hb]
  · left; simp [serveFile, hb]

/-! ## The read loop on a server that never reports would-block -/

theorem doReceiveFile_chunk (env : Env) (F : List Byte) (s : State) (j : Nat)
    (hserve : ServesUnblocked F env) :
    doReceiveFile env (afterFullReads F s j) =
      (let m := min BUFFER_SIZE (F.length - BUFFER_SIZE * j)
       let s1 : State :=
        { s with
          n_sftp_read := j + 1
          trace := s.trace ++ fullReads F j ++
            [Event.call Fn.doReceiveFile, Event.sftp_read (m : Int)] }
       if 0 < m then
         { s1 with
           ctx := { s.ctx with
             output_file := s.ctx.output_file ++ F.take (BUFFER_SIZE * j + m) }
           trace := s1.trace ++ [Event.write ((F.drop (BUFFER_SIZE * j)).take m)]
           control := if BUFFER_SIZE ≤ m then Control.call Fn.doReceiveFile
             else Control.call Fn.doCleanup }
       else
         { s1 with
           ctx := { s.ctx with
             output_file := s.ctx.output_file ++ F.take (BUFFER_SIZE * j) }
           control := Control.loop }) := by
  have hr : env.sftp_read j = chunkRead F j := hserve j
  have hlen : (chunkRead F j).data.length = min BUFFER_SIZE (F.length - BUFFER_SIZE * j) := by
    simp [chunkRead, List.length_take, List.length_drop]
  have htake : (bufferAfter (chunkRead F j)).take (min BUFFER_SIZE (F.length - BUFFER_SIZE * j)) =
      (F.drop (BUFFER_SIZE * j)).take (min BUFFER_SIZE (F.length - BUFFER_SIZE * j)) := by
    rw [take_bufferAfter _ _ (le_of_eq hlen.symm) (by rw [hlen]; exact min_le_left _ _)]
    simp [chunkRead, List.take_take]
  have hrc : (chunkRead F j).rc = ((min BUFFER_SIZE (F.length - BUFFER_SIZE * j) : Nat) : Int) := rfl
  simp only [doReceiveFile, afterFullReads, hr, hrc, Int.toNat_ofNat, htake]
  by_cases hm : 0 < min BUFFER_SIZE (F.length - BUFFER_SIZE * j)
  · have h1 : (0 : Int) < ((min BUFFER_SIZE (F.length - BUFFER_SIZE * j) : Nat) : Int) := by
      exact_mod_cast hm
    rw [if_pos h1, if_pos hm]
    by_cases hfull : BUFFER_SIZE ≤ min BUFFER_SIZE (F.length - BUFFER_SIZE * j)
    · have h2 : (BUFFER_SIZE : Int) ≤ ((min BUFFER_SIZE (F.length - BUFFER_SIZE * j) : Nat) : Int) := by
        exact_mod_cast hfull
      rw [if_pos h2, if_pos hfull]
      simp [List.take_add, List.append_assoc]
    · have h2 : ¬ (BUFFER_SIZE : Int) ≤ ((min BUFFER_SIZE (F.length - BUFFER_SIZE * j) : Nat) : Int) := by
        exact_mod_cast hfull
      rw [if_neg h2, if_neg hfull]
      simp [List.take_add, List.append_assoc]
  · have h1 : ¬ (0 : Int) < ((min BUFFER_SIZE (F.length - BUFFER_SIZE * j) : Nat) : Int) := by
      exact_mod_cast hm
    have h3 : ((min BUFFER_SIZE (F.length - BUFFER_SIZE * j) : Nat) : Int) ≠ LIBSSH2_ERROR_EAGAIN := by
      simp only [LIBSSH2_ERROR_EAGAIN]; omega
    have h4 : ¬ ((min BUFFER_SIZE (F.length - BUFFER_SIZE * j) : Nat) : Int) < 0 := by omega
    rw [if_neg h1, if_neg hm, if_neg h3, if_neg h4]


theorem runFrom_fullReads (env : Env) (F : List Byte) (s : State)
    (hserve : ServesUnblocked F env) (hc : s.control = Control.call Fn.doReceiveFile)
    (h0 : s.n_sftp_read = 0) :
    ∀ j, BUFFER_SIZE * j ≤ F.length → runFrom env s j = afterFullReads F s j := by
  intro j
  induction j with
  | zero =>
    intro _
    cases s
    simp_all [runFrom, afterFullReads, fullReads]
  | succ j ih =>
    intro hj
    have hj' : BUFFER_SIZE * j ≤ F.length := by
      have : BUFFER_SIZE * j ≤ BUFFER_SIZE * (j + 1) := Nat.mul_le_mul_left _ (Nat.le_succ j)
      omega
    have hm : min BUFFER_SIZE (F.length - BUFFER_SIZE * j) = BUFFER_SIZE := by
      have : BUFFER_SIZE * (j + 1) = BUFFER_SIZE * j + BUFFER_SIZE := by ring
      omega
    have hstep : step env (afterFullReads F s j) = doReceiveFile env (afterFullReads F s j) := by
      simp [step, afterFullReads]
    rw [runFrom, ih hj', hstep, doReceiveFile_chunk env F s j hserve]
    simp only [hm]
    simp [afterFullReads, fullReads, BUFFER_SIZE, Nat.mul_succ]

theorem runFrom_lastRead (env : Env) (F : List Byte) (s : State)
    (hserve : ServesUnblocked F env) (hc : s.control = Control.call Fn.doReceiveFile)
    (h0 : s.n_sftp_read = 0) (hS : F.length % BUFFER_SIZE ≠ 0) :
    runFrom env s (F.length / BUFFER_SIZE + 1) = afterLastRead F s := by
  have hq : BUFFER_SIZE * (F.length / BUFFER_SIZE) ≤ F.length := Nat.mul_div_le _ _
  have hstep : step env (afterFullReads F s (F.length / BUFFER_SIZE)) =
      doReceiveFile env (afterFullReads F s (F.length / BUFFER_SIZE)) := by
    simp [step, afterFullReads]
  have hsub : F.length - BUFFER_SIZE * (F.length / BUFFER_SIZE) = F.length % BUFFER_SIZE := by
    have := Nat.div_add_mod F.length BUFFER_SIZE
    omega
  have hlt : F.length % BUFFER_SIZE < BUFFER_SIZE := Nat.mod_lt _ (by decide)
  have hm : min BUFFER_SIZE (F.length - BUFFER_SIZE * (F.length / BUFFER_SIZE)) =
      F.length % BUFFER_SIZE := by
    rw [hsub]; exact min_eq_right (le_of_lt hlt)
  have hall : BUFFER_SIZE * (F.length / BUFFER_SIZE) + F.length % BUFFER_SIZE = F.length :=
    Nat.div_add_mod F.length BUFFER_SIZE
  have hdrop : List.take (F.length % BUFFER_SIZE)
      (List.drop (BUFFER_SIZE * (F.length / BUFFER_SIZE)) F) =
      List.drop (BUFFER_SIZE * (F.length / BUFFER_SIZE)) F := by
    apply List.take_of_length_le
    rw [List.length_drop]; omega
  rw [runFrom, runFrom_fullReads env F s hserve hc h0 _ hq, hstep,
    doReceiveFile_chunk env F s _ hserve]
  simp only [hm, hall, hdrop]
  rw [if_pos (Nat.pos_of_ne_zero hS), if_neg (not_le.mpr hlt), List.take_of_length_le (le_refl _)]
  simp [afterLastRead]

theorem runFrom_zeroRead (env : Env) (F : List Byte) (s : State)
    (hserve : ServesUnblocked F env) (hc : s.control = Control.call Fn.doReceiveFile)
    (h0 : s.n_sftp_read = 0) (hS : F.length % BUFFER_SIZE = 0) :
    runFrom env s (F.length / BUFFER_SIZE + 1) = afterZeroRead F s := by
  have hq : BUFFER_SIZE * (F.length / BUFFER_SIZE) ≤ F.length := Nat.mul_div_le _ _
  have hstep : step env (afterFullReads F s (F.length / BUFFER_SIZE)) =
      doReceiveFile env (afterFullReads F s (F.length / BUFFER_SIZE)) := by
    simp [step, afterFullReads]
  have hall : BUFFER_SIZE * (F.length / BUFFER_SIZE) = F.length := by
    have := Nat.div_add_mod F.length BUFFER_SIZE
    omega
  have hm : min BUFFER_SIZE (F.length - BUFFER_SIZE * (F.length / BUFFER_SIZE)) = 0 := by
    rw [hall]; simp
  rw [runFrom, runFrom_fullReads env F s hserve hc h0 _ hq, hstep,
    doReceiveFile_chunk env F s _ hserve]
  simp only [hm]
  rw [if_neg (lt_irrefl 0), hall, List.take_of_length_le (le_refl _)]
  simp [afterZeroRead]


theorem readAttempts_fullReads (F : List Byte) (j : Nat) :
    readAttempts (fullReads F j) = List.replicate j (BUFFER_SIZE : Int) := by
  induction j with
  | zero => rfl
  | succ j ih =>
    rw [fullReads, readAttempts, List.filterMap_append, ← readAttempts, ih,
      List.replicate_succ']
    rfl

theorem cleanups_fullReads (F : List Byte) (j : Nat) : cleanups (fullReads F j) = 0 := by
  induction j with
  | zero => rfl
  | succ j ih => simp [fullReads, ih, isCleanup]

theorem handlers_fullReads (F : List Byte) (j : Nat) : handlers (fullReads F j) = 0 := by
  induction j with
  | zero => rfl
  | succ j ih => simp [fullReads, ih, isHandler]

theorem readAttempts_append (t u : List Event) :
    readAttempts (t ++ u) = readAttempts t ++ readAttempts u := List.filterMap_append _ _ _

/-! ## The end of a session -/

theorem step_finished (env : Env) (s : State) (h : s.control = Control.finished) :
    step env s = s := by
  simp [step, h]

theorem runFrom_finished (env : Env) (s : State) (h : s.control = Control.finished) (n : Nat) :
    runFrom env s n = s := by
  induction n with
  | zero => rfl
  | succ n ih => rw [runFrom, ih, step_finished env s h]

/-- The rest of a session that is back in the event loop with nothing
outstanding: `run` returns. -/
theorem runFrom_idle (env : Env) (s : State) (hc : s.control = Control.loop)
    (hp : s.pending = []) (m : Nat) :
    runFrom env s (1 + m) = { s with control := Control.finished } := by
  have h1 : runFrom env s 1 = { s with control := Control.finished } := by
    simp [runFrom, step, hc, runOne, hp]
  rw [runFrom_add, h1]
  exact runFrom_finished env _ rfl m

theorem handlers_pos_of_mem (t : List Event) (h : Event.handler ∈ t) : 0 < handlers t :=
  List.countP_pos_iff.mpr ⟨Event.handler, h, rfl⟩

theorem subCapacityRead_step (env : Env) (s : State) (h : subCapacityRead s.trace = true) :
    subCapacityRead (step env s).trace = true := by
  cases hc : s.control with
  | finished => simp [step, hc, h]
  | thrown msg => simp [step, hc, h]
  | loop =>
    simp only [step, hc, runOne]
    repeat' split
    all_goals simp [h]
  | call f =>
    cases f <;>
      simp only [step, hc, resolveHandler, connectHandler, doSessionHandshake, doAuthentication,
        doSFTPInit, doOpenFile, doReceiveFile, doCleanup]
    all_goals repeat' split
    all_goals simp [h]

theorem subCapacityRead_run (env : Env) (req : Request) (n m : Nat)
    (h : subCapacityRead (run env req n).trace = true) :
    subCapacityRead (run env req (n + m)).trace = true := by
  induction m with
  | zero => exact h
  | succ m ih => exact subCapacityRead_step env _ ih

theorem cleanups_zero_of_running (env : Env) (req : Request) (n : Nat)
    (h : (run env req n).control ≠ Control.loop ∧ (run env req n).control ≠ Control.finished) :
    cleanups (run env req n).trace = 0 := by
  obtain ⟨_, h2, h3, _, _⟩ := teardownOnce_run env req n
  rcases Nat.lt_or_ge (cleanups (run env req n).trace) 1 with hlt | hge
  · omega
  · rcases (h3 (by omega)).1 with hl | hf
    · exact absurd hl h.1
    · exact absurd hf h.2

theorem teardown_after_subCapacityRead (env : Env) (req : Request) (n : Nat)
    (hsub : subCapacityRead (run env req n).trace = true) :
    cleanups (run env req (n + 1)).trace = 1 ∧ handlers (run env req (n + 1)).trace = 1 := by
  obtain ⟨_, _, h3, h4, _⟩ := teardownOnce_run env req n
  obtain ⟨g1, _, _, _, _⟩ := teardownOnce_run env req (n + 1)
  rcases h4.1 hsub with hc | hc
  · have h0 := cleanups_zero_of_running env req n (by simp [hc])
    have : cleanups (run env req (n + 1)).trace = 1 := by
      rw [run_succ]
      simp only [step, hc, doCleanup, cleanups_append]
      simp [h0, isCleanup]
    exact ⟨this, by omega⟩
  · have hfix : (run env req (n + 1)).trace = (run env req n).trace := by
      obtain ⟨hctl, hp⟩ := h3 hc
      rw [run_succ]
      rcases hctl with hl | hf
      · simp [step, hl, runOne, hp]
      · simp [step, hf]
    have : cleanups (run env req (n + 1)).trace = 1 := by rw [hfix]; exact hc
    exact ⟨this, by omega⟩

/-! ## Handle releases and wait directions -/

@[simp]
theorem releases_append (t u : List Event) :
    releases (t ++ u) = releases t + releases u := List.countP_append _ _ _

@[simp]
theorem releases_cons (e : Event) (t : List Event) :
    releases (e :: t) = releases t + (if isRelease e then 1 else 0) := List.countP_cons _ _ _

@[simp]
theorem releases_nil : releases [] = 0 := rfl

theorem waits_append (t u : List Event) : waits (t ++ u) = waits t ++ waits u :=
  List.filterMap_append _ _ _

theorem releases_step (env : Env) (s : State)
    (h : releases s.trace = 4 * cleanups s.trace) :
    releases (step env s).trace = 4 * cleanups (step env s).trace := by
  cases hc : s.control with
  | finished => simp [step, hc, h]
  | thrown msg => simp [step, hc, h]
  | loop =>
    simp only [step, hc, runOne]
    repeat' split
    all_goals simp [h, isRelease, isCleanup]
  | call f =>
    cases f <;>
      simp only [step, hc, resolveHandler, connectHandler, doSessionHandshake, doAuthentication,
        doSFTPInit, doOpenFile, doReceiveFile, doCleanup]
    all_goals repeat' split
    all_goals simp [h, isRelease, isCleanup]
    all_goals omega

theorem releases_run (env : Env) (req : Request) (n : Nat) :
    releases (run env req n).trace = 4 * cleanups (run env req n).trace := by
  induction n with
  | zero => simp [run, runFrom, downloadFile, isRelease, isCleanup]
  | succ n ih => exact releases_step env _ ih

theorem waits_nil : waits [] = [] := rfl

theorem waits_cons (e : Event) (t : List Event) :
    waits (e :: t) =
      (match e with
        | Event.async_wait w k => [(w, k)]
        | _ => []) ++ waits t := by
  cases e <;> rfl

theorem waits_step (env : Env) (s : State) :
    ∀ p ∈ waits (step env s).trace,
      p ∈ waits s.trace ∨ (rightDirection p = true ∧ s.control = Control.call p.2) := by
  cases hc : s.control with
  | finished => intro p hp; left; simpa [step, hc] using hp
  | thrown msg => intro p hp; left; simpa [step, hc] using hp
  | loop =>
    simp only [step, hc, runOne]
    repeat' split
    all_goals simp [waits_append, waits_cons, waits_nil]
  | call f =>
    cases f <;>
      simp only [step, hc, resolveHandler, connectHandler, doSessionHandshake, doAuthentication,
        doSFTPInit, doOpenFile, doReceiveFile, doCleanup]
    all_goals repeat' split
    all_goals intro p hp
    all_goals try simp only [waits_append, waits_cons, waits_nil, List.mem_append,
      List.append_nil, List.nil_append, List.mem_singleton, List.not_mem_nil, or_false] at hp
    all_goals first
      | exact Or.inl hp
      | (rcases hp with h | rfl
         · exact Or.inl h
         · exact Or.inr ⟨rfl, rfl⟩)

theorem waits_run (env : Env) (req : Request) (n : Nat) :
    ∀ p ∈ waits (run env req n).trace, rightDirection p = true := by
  induction n with
  | zero => simp [run, runFrom, downloadFile, waits]
  | succ n ih =>
    intro p hp
    rcases waits_step env (run env req n) p hp with h | h
    · exact ih p h
    · exact h.1

/-! ## The claims -/

/-- Claim C1.  Byte identity: when the read primitive serves the file `F` in
order as chunks of `min 4096 remaining` bytes, with would-block results
interleaved anywhere, every session that has reached `doCleanup` and invoked
the completion handler has written exactly the bytes of `F`, in order, to
`output_file`. -/
theorem byte_identity (env : Env) (req : Request) (F : List Byte) (n : Nat)
    (hserve : Serves F env) (hdone : Event.handler ∈ (run env req n).trace) :
    (run env req n).ctx.output_file = F := by
  obtain ⟨h1, h2⟩ := sinkInv_run F env req hserve n
  rw [h1]
  exact List.take_of_length_le (h2 (Or.inr (handlers_pos_of_mem _ hdone)))

/-- A three-byte file on a server where every stage and the first read report
would-block: the session reaches the handler with the three bytes written. -/
theorem byte_identity_witness :
    Serves [7, 8, 9] (slowFixture [7, 8, 9]) ∧
    Event.handler ∈ (run (slowFixture [7, 8, 9]) exampleRequest 20).trace ∧
    (run (slowFixture [7, 8, 9]) exampleRequest 20).ctx.output_file = [7, 8, 9] :=
  ⟨serves_serveFile _ _ _ rfl, by decide,
    byte_identity (slowFixture [7, 8, 9]) exampleRequest [7, 8, 9] 20
      (serves_serveFile _ _ _ rfl) (by decide)⟩

/-- Claim C2, as the code behaves on an exact multiple of the capacity.  For a
file whose size is a multiple of 4096, served as chunks of `min 4096 remaining`
bytes and 0 bytes once exhausted, the read loop writes every byte to the sink
and stops at the first read below capacity, which is the zero-byte read; it
then returns to the event loop and the session ends: `doCleanup` is not
entered and the completion handler is not invoked. -/
theorem exact_multiple_ends_without_teardown (env : Env) (F : List Byte) (s : State) (m : Nat)
    (hserve : ServesUnblocked F env) (hc : s.control = Control.call Fn.doReceiveFile)
    (h0 : s.n_sftp_read = 0) (hp : s.pending = []) (hS : F.length % BUFFER_SIZE = 0) :
    runFrom env s (F.length / BUFFER_SIZE + 1) = afterZeroRead F s ∧
    (runFrom env s (F.length / BUFFER_SIZE + 2 + m)).control = Control.finished ∧
    (runFrom env s (F.length / BUFFER_SIZE + 2 + m)).ctx.output_file = s.ctx.output_file ++ F ∧
    readAttempts (runFrom env s (F.length / BUFFER_SIZE + 2 + m)).trace =
      readAttempts s.trace ++ List.replicate (F.length / BUFFER_SIZE) (BUFFER_SIZE : Int) ++ [0] ∧
    cleanups (runFrom env s (F.length / BUFFER_SIZE + 2 + m)).trace = cleanups s.trace ∧
    handlers (runFrom env s (F.length / BUFFER_SIZE + 2 + m)).trace = handlers s.trace := by
  have h1 := runFrom_zeroRead env F s hserve hc h0 hS
  have h2 : runFrom env s (F.length / BUFFER_SIZE + 2 + m) =
      { afterZeroRead F s with control := Control.finished } := by
    rw [show F.length / BUFFER_SIZE + 2 + m = (F.length / BUFFER_SIZE + 1) + (1 + m) by omega,
      runFrom_add, h1]
    exact runFrom_idle env (afterZeroRead F s) rfl hp m
  refine ⟨h1, ?_⟩
  rw [h2]
  refine ⟨rfl, rfl, ?_, ?_, ?_⟩
  · simp [afterZeroRead, readAttempts_append, readAttempts_fullReads]
    rfl
  · simp [afterZeroRead, cleanups_fullReads, isCleanup]
  · simp [afterZeroRead, handlers_fullReads, isHandler]

/-- A file of 4096 bytes: the session started by `downloadFile` enters
`doReceiveFile` at its eighth step and ends without invoking the handler. -/
theorem exact_multiple_witness :
    ServesUnblocked (List.replicate 4096 0) (fixture (List.replicate 4096 0)) ∧
    (run (fixture (List.replicate 4096 0)) exampleRequest 8).control =
      Control.call Fn.doReceiveFile ∧
    (run (fixture (List.replicate 4096 0)) exampleRequest 8).n_sftp_read = 0 ∧
    (run (fixture (List.replicate 4096 0)) exampleRequest 8).pending = [] ∧
    (List.replicate 4096 0 : List Byte).length % BUFFER_SIZE = 0 ∧
    (runFrom (fixture (List.replicate 4096 0))
      (run (fixture (List.replicate 4096 0)) exampleRequest 8)
      ((List.replicate 4096 0 : List Byte).length / BUFFER_SIZE + 2 + 0)).control =
        Control.finished ∧
    handlers (runFrom (fixture (List.replicate 4096 0))
      (run (fixture (List.replicate 4096 0)) exampleRequest 8)
      ((List.replicate 4096 0 : List Byte).length / BUFFER_SIZE + 2 + 0)).trace = 0 :=
  have h := exact_multiple_ends_without_teardown (fixture (List.replicate 4096 0))
    (List.replicate 4096 0) (run (fixture (List.replicate 4096 0)) exampleRequest 8) 0
    (fun _ => rfl) (by decide) (by decide) (by decide)
    (by rw [List.length_replicate]; decide)
  ⟨fun _ => rfl, by decide, by decide, by decide, by rw [List.length_replicate]; decide,
    h.2.1, h.2.2.2.2.2.trans (by decide)⟩

/-- Claim C3, amended.  Whatever the primitives return, a session enters
`doCleanup` at most once and invokes the completion handler exactly as often;
a fault at any stage raises an exception, and a session that ended by an
exception has run neither `doCleanup` nor the handler and never will; once a
read has returned a positive count below the capacity, the session runs
`doCleanup` and the handler at its next step, and from then on has run each
exactly once. -/
theorem teardown_at_most_once (env : Env) (req : Request) (n : Nat) :
    cleanups (run env req n).trace ≤ 1 ∧
    handlers (run env req n).trace = cleanups (run env req n).trace ∧
    (∀ f, (run env req n).control = Control.call f → fault env (run env req n) f →
      ∃ msg, (run env req (n + 1)).control = Control.thrown msg) ∧
    (∀ msg, (run env req n).control = Control.thrown msg →
      ∀ m, cleanups (run env req (n + m)).trace = 0 ∧
        handlers (run env req (n + m)).trace = 0) ∧
    (subCapacityRead (run env req n).trace = true →
      ∀ m, cleanups (run env req (n + m + 1)).trace = 1 ∧
        handlers (run env req (n + m + 1)).trace = 1) := by
  obtain ⟨h1, h2, _, _, _⟩ := teardownOnce_run env req n
  refine ⟨h2, h1, ?_, ?_, ?_⟩
  · intro f hc hf
    exact fault_throws env _ f hc hf
  · intro msg hc m
    rw [run_add, runFrom_thrown env _ msg hc m]
    have h0 := cleanups_zero_of_running env req n (by simp [hc])
    exact ⟨h0, by omega⟩
  · intro hsub m
    exact teardown_after_subCapacityRead env req (n + m) (subCapacityRead_run env req n m hsub)

/-- Claim C3 fails as stated: when the resolution fails, the session ends by
an exception at its second step, and `doCleanup` and the handler never run. -/
theorem resolve_fault_skips_teardown :
    (run resolveFault exampleRequest 2).control = Control.thrown "Host not found" ∧
    (∀ n, cleanups (run resolveFault exampleRequest (2 + n)).trace = 0 ∧
      handlers (run resolveFault exampleRequest (2 + n)).trace = 0) :=
  ⟨by decide, fun n => by
    rw [run_add, runFrom_thrown resolveFault _ "Host not found" (by decide) n]
    decide⟩

/-- A session without fault: once the read has returned 3 bytes, `doCleanup`
and the handler have run once. -/
theorem teardown_at_most_once_witness :
    subCapacityRead (run (fixture [7, 8, 9]) exampleRequest 9).trace = true ∧
    cleanups (run (fixture [7, 8, 9]) exampleRequest 10).trace = 1 ∧
    handlers (run (fixture [7, 8, 9]) exampleRequest 10).trace = 1 :=
  ⟨by decide,
    (teardown_at_most_once (fixture [7, 8, 9]) exampleRequest 9).2.2.2.2 (by decide) 0⟩

/-- Claim C4.  Every call of `doCleanup` performs, in this order and each once:
the switch of the session to blocking mode, the close of the file handle, the
shutdown of the SFTP session, the disconnect and then the free of the session,
and last the call of the completion handler, without arguments; it changes
nothing else and returns to the event loop. -/
theorem doCleanup_order (s : State) :
    doCleanup s =
      { s with
        trace := s.trace ++
          [Event.call Fn.doCleanup,
           Event.session_set_blocking s.ctx.session 1,
           Event.sftp_close s.ctx.sftp_handle,
           Event.sftp_shutdown s.ctx.sftp_session,
           Event.session_disconnect s.ctx.session,
           Event.session_free s.ctx.session,
           Event.handler]
        control := Control.loop } := rfl

/-- Claim C5.  Would-block retry: when the operation of one of the stages
`doSessionHandshake`, `doAuthentication`, `doSFTPInit`, `doOpenFile`,
`doReceiveFile` reports would-block, the stage enters no other function (no
other stage, no teardown), registers exactly one readiness wait, for itself,
and returns to the event loop; and when that wait fires without error, the
same stage function is entered, exactly once. -/
theorem wouldBlock_retry (env : Env) (s : State) (f : Fn)
    (hc : s.control = Control.call f) (hb : wouldBlock env s f) :
    (step env s).control = Control.loop ∧
    (∃ w, (step env s).pending = s.pending ++ [Pending.wait w f] ∧
      waits (step env s).trace = waits s.trace ++ [(w, f)]) ∧
    calls (step env s).trace = calls s.trace ++ [f] ∧
    (s.pending = [] → env.wait_ec s.n_wait = none →
      (step env (step env s)).control = Control.call f ∧
      (step env (step env s)).pending = [] ∧
      calls (step env (step env s)).trace = calls (step env s).trace ∧
      calls (step env (step env (step env s))).trace = calls (step env s).trace ++ [f]) := by
  have hf : f ≠ Fn.downloadFile := by
    rintro rfl; exact hb
  have key : (step env s).control = Control.loop ∧
      (∃ w, (step env s).pending = s.pending ++ [Pending.wait w f] ∧
        waits (step env s).trace = waits s.trace ++ [(w, f)]) ∧
      (step env s).n_wait = s.n_wait := by
    cases f <;> simp only [wouldBlock] at hb
    · simp [step, hc, doSessionHandshake, hb, waits]
    · simp [step, hc, doAuthentication, hb, waits]
    · simp [step, hc, doSFTPInit, hb, waits]
    · simp [step, hc, doOpenFile, hb, waits]
    · simp [step, hc, doReceiveFile, hb, waits, LIBSSH2_ERROR_EAGAIN]
  obtain ⟨h1, ⟨w, h2, h3⟩, h4⟩ := key
  refine ⟨h1, ⟨w, h2, h3⟩, calls_step_call env s f hc hf, ?_⟩
  intro hp hec
  have h5 : step env (step env s) =
      { step env s with
        pending := []
        n_wait := s.n_wait + 1
        trace := (step env s).trace ++ [Event.waited w f none]
        control := Control.call f } := by
    conv_lhs => rw [step]
    simp [h1, runOne, h2, hp, h4, hec]
  refine ⟨by rw [h5], by rw [h5], by rw [h5]; simp [calls], ?_⟩
  rw [calls_step_call env _ f (by rw [h5]) hf, h5]
  simp [calls]


/-- The first handshake attempt of a session on the slow server reports
would-block. -/
theorem wouldBlock_retry_witness :
    (run (slowFixture []) exampleRequest 4).control = Control.call Fn.doSessionHandshake ∧
    (run (slowFixture []) exampleRequest 4).pending = [] ∧
    (slowFixture []).wait_ec (run (slowFixture []) exampleRequest 4).n_wait = none ∧
    wouldBlock (slowFixture []) (run (slowFixture []) exampleRequest 4) Fn.doSessionHandshake ∧
    (step (slowFixture []) (run (slowFixture []) exampleRequest 4)).control = Control.loop ∧
    calls (step (slowFixture []) (step (slowFixture []) (step (slowFixture [])
      (run (slowFixture []) exampleRequest 4)))).trace =
      calls (step (slowFixture []) (run (slowFixture []) exampleRequest 4)).trace ++
        [Fn.doSessionHandshake] :=
  have h := wouldBlock_retry (slowFixture []) (run (slowFixture []) exampleRequest 4)
    Fn.doSessionHandshake (by decide) rfl
  ⟨by decide, by decide, by decide, rfl, h.1, (h.2.2.2 (by decide) (by decide)).2.2.2⟩

/-- Claim C6.  Single flight: in every state of a session at most one
asynchronous operation (resolve, connect or readiness wait) is outstanding,
the outstanding operations being the registered ones that have not completed;
none is outstanding while a function of the session runs; and every step
registers at most one operation, and when it registers one, control is back in
the event loop: no further stage is invoked. -/
theorem single_flight (env : Env) (req : Request) (n : Nat) :
    (run env req n).pending.length ≤ 1 ∧
    completions (run env req n).trace + (run env req n).pending.length =
      registrations (run env req n).trace ∧
    (∀ f, (run env req n).control = Control.call f → (run env req n).pending = []) ∧
    registrations (run env req (n + 1)).trace ≤ registrations (run env req n).trace + 1 ∧
    (registrations (run env req (n + 1)).trace = registrations (run env req n).trace + 1 →
      (run env req (n + 1)).control = Control.loop) := by
  obtain ⟨h1, h2, h3⟩ := singleFlight_run env req n
  obtain ⟨h4, h5⟩ := registrations_step env (run env req n)
  exact ⟨h1, h3, fun f hc => h2 (by simp [hc]), h4, h5⟩

/-- Claim C7.  In every session the stages entered, with consecutive
repetitions collapsed, are an initial segment of the pipeline resolve, connect,
handshake, authentication, subsystem init, file open, streaming read,
teardown; an event of a new stage comes directly after an event of the stage
before it that reports completion; and no stage is entered after a later one. -/
theorem pipeline_order (env : Env) (req : Request) (n : Nat) :
    collapse (stages (run env req n).trace) <+: pipeline ∧
    List.Chain' Follows (marks (run env req n).trace) ∧
    List.Sorted (fun a b => a ≤ b) ((stages (run env req n).trace).map Stage.index) := by
  obtain ⟨last, hl, hh, hch, _, _⟩ := stageOrder_run env req n
  have hst : List.Chain' (fun x y : Stage => x = y ∨ x.next = some y)
      (stages (run env req n).trace) := by
    rw [stages, List.chain'_map]
    exact hch.imp follows_stage
  refine ⟨?_, hch, ?_⟩
  · cases hm : marks (run env req n).trace with
    | nil => rw [hm] at hh; simp at hh
    | cons a l =>
      rw [hm] at hh
      simp only [List.head?_cons, Option.some.injEq] at hh
      rw [stages, hm, List.map_cons] at hst ⊢
      have := collapse_chain _ _ hst
      rw [hh] at this ⊢
      exact this
  · rw [List.Sorted, ← List.chain'_iff_pairwise, List.chain'_map]
    exact hst.imp next_index

/-- Claim C8.  On a server that never reports would-block, a file whose size
`S` is not a multiple of 4096 is read in exactly `S / 4096 + 1` attempts, which
return 4096 each but for the last, which returns `S % 4096`; `doCleanup` runs
directly after the last read, the sink then holds the bytes of the file
unchanged, and the session ends.  For 10000 bytes the attempts return 4096,
4096 and 1808. -/
theorem read_attempts (env : Env) (F : List Byte) (s : State) (m : Nat)
    (hserve : ServesUnblocked F env) (hc : s.control = Control.call Fn.doReceiveFile)
    (h0 : s.n_sftp_read = 0) (hp : s.pending = []) (hS : F.length % BUFFER_SIZE ≠ 0) :
    runFrom env s (F.length / BUFFER_SIZE + 2) = doCleanup (afterLastRead F s) ∧
    (runFrom env s (F.length / BUFFER_SIZE + 3 + m)).control = Control.finished ∧
    readAttempts (runFrom env s (F.length / BUFFER_SIZE + 3 + m)).trace =
      readAttempts s.trace ++ List.replicate (F.length / BUFFER_SIZE) (BUFFER_SIZE : Int) ++
        [((F.length % BUFFER_SIZE : Nat) : Int)] ∧
    (runFrom env s (F.length / BUFFER_SIZE + 3 + m)).n_sftp_read = F.length / BUFFER_SIZE + 1 ∧
    (runFrom env s (F.length / BUFFER_SIZE + 3 + m)).ctx.output_file = s.ctx.output_file ++ F ∧
    cleanups (runFrom env s (F.length / BUFFER_SIZE + 3 + m)).trace = cleanups s.trace + 1 ∧
    handlers (runFrom env s (F.length / BUFFER_SIZE + 3 + m)).trace = handlers s.trace + 1 ∧
    (F.length = 10000 →
      readAttempts (runFrom env s (5 + m)).trace = readAttempts s.trace ++ [4096, 4096, 1808] ∧
      (runFrom env s (5 + m)).ctx.output_file = s.ctx.output_file ++ F) := by
  have h1 := runFrom_lastRead env F s hserve hc h0 hS
  have h2 : runFrom env s (F.length / BUFFER_SIZE + 2) = doCleanup (afterLastRead F s) := by
    rw [show F.length / BUFFER_SIZE + 2 = (F.length / BUFFER_SIZE + 1) + 1 by omega,
      runFrom_add, h1]
    rfl
  have h3 : ∀ k, runFrom env s (F.length / BUFFER_SIZE + 3 + k) =
      { doCleanup (afterLastRead F s) with control := Control.finished } := by
    intro k
    rw [show F.length / BUFFER_SIZE + 3 + k = (F.length / BUFFER_SIZE + 2) + (1 + k) by omega,
      runFrom_add, h2]
    exact runFrom_idle env (doCleanup (afterLastRead F s)) rfl hp k
  have h4 : readAttempts (doCleanup (afterLastRead F s)).trace =
      readAttempts s.trace ++ List.replicate (F.length / BUFFER_SIZE) (BUFFER_SIZE : Int) ++
        [((F.length % BUFFER_SIZE : Nat) : Int)] := by
    simp [doCleanup, afterLastRead, readAttempts_append, readAttempts_fullReads]
    rfl
  refine ⟨h2, ?_, ?_, ?_, ?_, ?_, ?_, ?_⟩
  · rw [h3]
  · rw [h3]; exact h4
  · rw [h3]; rfl
  · rw [h3]; rfl
  · rw [h3]; simp [doCleanup, afterLastRead, cleanups_fullReads, isCleanup]
  · rw [h3]; simp [doCleanup, afterLastRead, handlers_fullReads, isHandler]
  · intro hlen
    have hq : F.length / BUFFER_SIZE = 2 := by rw [hlen]; rfl
    have h5 := h3 m
    rw [hq] at h5
    have h6 : (2 : Nat) + 3 + m = 5 + m := by omega
    rw [h6] at h5
    rw [h5]
    refine ⟨?_, rfl⟩
    show readAttempts (doCleanup (afterLastRead F s)).trace = _
    rw [h4, hq, hlen]
    simp [BUFFER_SIZE, List.replicate]


/-- The scenario of the specification: a file of 10000 bytes, in the session
started by `downloadFile`, which enters `doReceiveFile` at its eighth step. -/
theorem read_attempts_witness :
    ServesUnblocked (List.replicate 10000 0) (fixture (List.replicate 10000 0)) ∧
    (run (fixture (List.replicate 10000 0)) exampleRequest 8).control =
      Control.call Fn.doReceiveFile ∧
    (run (fixture (List.replicate 10000 0)) exampleRequest 8).n_sftp_read = 0 ∧
    (run (fixture (List.replicate 10000 0)) exampleRequest 8).pending = [] ∧
    (List.replicate 10000 0 : List Byte).length % BUFFER_SIZE ≠ 0 ∧
    readAttempts (runFrom (fixture (List.replicate 10000 0))
      (run (fixture (List.replicate 10000 0)) exampleRequest 8) (5 + 0)).trace =
        [4096, 4096, 1808] ∧
    (runFrom (fixture (List.replicate 10000 0))
      (run (fixture (List.replicate 10000 0)) exampleRequest 8) (5 + 0)).ctx.output_file =
        List.replicate 10000 0 :=
  have h := read_attempts (fixture (List.replicate 10000 0))
    (List.replicate 10000 0) (run (fixture (List.replicate 10000 0)) exampleRequest 8) 0
    (fun _ => rfl) (by decide) (by decide) (by decide)
    (by rw [List.length_replicate]; decide)
  have h10 := h.2.2.2.2.2.2.2 (List.length_replicate _ _)
  ⟨fun _ => rfl, by decide, by decide, by decide, by rw [List.length_replicate]; decide,
    h10.1, h10.2⟩

/-- Claim C9.  Called with a resolution error, or with no error and an empty
endpoint set, `resolveHandler` raises an exception, with the message
"No endpoints" in the second case, before it creates the socket and without
starting a connection attempt; the session has then ended, so no later stage
runs. -/
theorem resolveHandler_fails_fast (env : Env) (s : State) (m : Nat)
    (hc : s.control = Control.call Fn.resolveHandler)
    (he : env.resolve_ec ≠ none ∨ env.endpoints = []) :
    ∃ msg, (env.resolve_ec = none → msg = "No endpoints") ∧
      (∀ e, env.resolve_ec = some e → msg = e) ∧
      runFrom env s (1 + m) =
        { s with
          trace := s.trace ++ [Event.call Fn.resolveHandler, Event.throw msg]
          control := Control.thrown msg } := by
  cases hr : env.resolve_ec with
  | some e =>
    refine ⟨e, by simp, by simp, ?_⟩
    have h1 : runFrom env s 1 =
        { s with
          trace := s.trace ++ [Event.call Fn.resolveHandler, Event.throw e]
          control := Control.thrown e } := by
      simp [runFrom, step, hc, resolveHandler, hr]
    rw [runFrom_add, h1]
    exact runFrom_thrown env _ e rfl m
  | none =>
    have hemp : env.endpoints = [] := by
      rcases he with he | he
      · exact absurd hr he
      · exact he
    refine ⟨"No endpoints", by simp, by simp, ?_⟩
    have h1 : runFrom env s 1 =
        { s with
          trace := s.trace ++ [Event.call Fn.resolveHandler, Event.throw "No endpoints"]
          control := Control.thrown "No endpoints" } := by
      simp [runFrom, step, hc, resolveHandler, hr, hemp]
    rw [runFrom_add, h1]
    exact runFrom_thrown env _ "No endpoints" rfl m

/-- A resolution without endpoints: the session ends by the exception, with no
socket and nothing outstanding. -/
theorem resolveHandler_fails_fast_witness :
    (run noEndpoints exampleRequest 1).control = Control.call Fn.resolveHandler ∧
    noEndpoints.endpoints = [] ∧
    (run noEndpoints exampleRequest 5).control = Control.thrown "No endpoints" ∧
    (run noEndpoints exampleRequest 5).ctx.socket = false ∧
    (run noEndpoints exampleRequest 5).pending = [] := by
  obtain ⟨msg, h1, _, h3⟩ := resolveHandler_fails_fast noEndpoints
    (run noEndpoints exampleRequest 1) 3 (by decide) (Or.inr rfl)
  have hmsg := h1 rfl
  subst hmsg
  have h5 : run noEndpoints exampleRequest 5 =
      runFrom noEndpoints (run noEndpoints exampleRequest 1) (1 + 3) := run_add _ _ 1 4
  rw [h5, h3]
  exact ⟨by decide, rfl, rfl, by decide, by decide⟩

/-- Claim C10.  The sink is written by the read loop only: `downloadFile`
creates it empty; none of `resolveHandler`, `connectHandler`,
`doSessionHandshake`, `doAuthentication`, `doSFTPInit`, `doOpenFile`,
`doCleanup` and the event loop changes `output_file`; and one call of
`doReceiveFile` appends the first `rc` bytes of the buffer when the read
returns `rc > 0` (exactly `rc` bytes, `rc` being at most the capacity) and
leaves the sink unchanged when the read reports would-block or an error. -/
theorem sink_frame (env : Env) (s : State) (req : Request) :
    (downloadFile req).ctx.output_file = [] ∧
    (resolveHandler env s).ctx.output_file = s.ctx.output_file ∧
    (connectHandler env s).ctx.output_file = s.ctx.output_file ∧
    (doSessionHandshake env s).ctx.output_file = s.ctx.output_file ∧
    (doAuthentication env s).ctx.output_file = s.ctx.output_file ∧
    (doSFTPInit env s).ctx.output_file = s.ctx.output_file ∧
    (doOpenFile env s).ctx.output_file = s.ctx.output_file ∧
    (doCleanup s).ctx.output_file = s.ctx.output_file ∧
    (runOne env s).ctx.output_file = s.ctx.output_file ∧
    (0 < (env.sftp_read s.n_sftp_read).rc →
      (doReceiveFile env s).ctx.output_file =
        s.ctx.output_file ++
          (bufferAfter (env.sftp_read s.n_sftp_read)).take
            (env.sftp_read s.n_sftp_read).rc.toNat) ∧
    ((env.sftp_read s.n_sftp_read).rc ≤ (BUFFER_SIZE : Int) →
      ((bufferAfter (env.sftp_read s.n_sftp_read)).take
        (env.sftp_read s.n_sftp_read).rc.toNat).length =
          (env.sftp_read s.n_sftp_read).rc.toNat) ∧
    ((env.sftp_read s.n_sftp_read).rc = LIBSSH2_ERROR_EAGAIN ∨
        (env.sftp_read s.n_sftp_read).rc < 0 →
      (doReceiveFile env s).ctx.output_file = s.ctx.output_file) := by
  refine ⟨rfl, ?_, ?_, ?_, ?_, ?_, ?_, rfl, ?_, ?_, ?_, ?_⟩
  · simp only [resolveHandler]; repeat' split
    all_goals rfl
  · simp only [connectHandler]; repeat' split
    all_goals rfl
  · simp only [doSessionHandshake]; repeat' split
    all_goals rfl
  · simp only [doAuthentication]; repeat' split
    all_goals rfl
  · simp only [doSFTPInit]; repeat' split
    all_goals rfl
  · simp only [doOpenFile]; repeat' split
    all_goals rfl
  · simp only [runOne]; repeat' split
    all_goals rfl
  · intro h
    simp only [doReceiveFile, h, if_true]
    split <;> rfl
  · intro h
    have hlen : (bufferAfter (env.sftp_read s.n_sftp_read)).length = BUFFER_SIZE := by
      simp [bufferAfter, List.length_take, List.length_append]
    rw [List.length_take, hlen]
    omega
  · intro h
    have h1 : ¬ 0 < (env.sftp_read s.n_sftp_read).rc := by
      rcases h with h | h
      · rw [h]; decide
      · omega
    simp only [doReceiveFile, h1, if_false]
    repeat' split
    all_goals rfl

/-- Claim C11.  Readiness direction of a retry: on would-block each of
`doSessionHandshake`, `doAuthentication`, `doSFTPInit` and `doOpenFile`
registers its wait for write readiness, and `doReceiveFile` registers its wait
for read readiness; whatever a step does, a wait it registers is for the
function that runs and of that function's direction, so that no wait of the
other direction is ever registered in a session. -/
theorem wait_direction (env : Env) (req : Request) (n : Nat) (s : State) :
    (s.control = Control.call Fn.doSessionHandshake →
      wouldBlock env s Fn.doSessionHandshake →
      (step env s).pending =
        s.pending ++ [Pending.wait WaitType.wait_write Fn.doSessionHandshake] ∧
      waits (step env s).trace =
        waits s.trace ++ [(WaitType.wait_write, Fn.doSessionHandshake)]) ∧
    (s.control = Control.call Fn.doAuthentication →
      wouldBlock env s Fn.doAuthentication →
      (step env s).pending =
        s.pending ++ [Pending.wait WaitType.wait_write Fn.doAuthentication] ∧
      waits (step env s).trace =
        waits s.trace ++ [(WaitType.wait_write, Fn.doAuthentication)]) ∧
    (s.control = Control.call Fn.doSFTPInit →
      wouldBlock env s Fn.doSFTPInit →
      (step env s).pending = s.pending ++ [Pending.wait WaitType.wait_write Fn.doSFTPInit] ∧
      waits (step env s).trace = waits s.trace ++ [(WaitType.wait_write, Fn.doSFTPInit)]) ∧
    (s.control = Control.call Fn.doOpenFile →
      wouldBlock env s Fn.doOpenFile →
      (step env s).pending = s.pending ++ [Pending.wait WaitType.wait_write Fn.doOpenFile] ∧
      waits (step env s).trace = waits s.trace ++ [(WaitType.wait_write, Fn.doOpenFile)]) ∧
    (s.control = Control.call Fn.doReceiveFile →
      wouldBlock env s Fn.doReceiveFile →
      (step env s).pending =
        s.pending ++ [Pending.wait WaitType.wait_read Fn.doReceiveFile] ∧
      waits (step env s).trace = waits s.trace ++ [(WaitType.wait_read, Fn.doReceiveFile)]) ∧
    (∀ p ∈ waits (step env s).trace,
      p ∈ waits s.trace ∨ (rightDirection p = true ∧ s.control = Control.call p.2)) ∧
    (∀ p ∈ waits (run env req n).trace, rightDirection p = true) := by
  refine ⟨?_, ?_, ?_, ?_, ?_, waits_step env s, waits_run env req n⟩
  · intro hc hb
    simp only [wouldBlock] at hb
    simp [step, hc, doSessionHandshake, hb, waits_append, waits_cons, waits_nil]
  · intro hc hb
    simp only [wouldBlock] at hb
    simp [step, hc, doAuthentication, hb, waits_append, waits_cons, waits_nil]
  · intro hc hb
    simp only [wouldBlock] at hb
    simp [step, hc, doSFTPInit, hb, waits_append, waits_cons, waits_nil]
  · intro hc hb
    simp only [wouldBlock] at hb
    simp [step, hc, doOpenFile, hb, waits_append, waits_cons, waits_nil]
  · intro hc hb
    simp only [wouldBlock] at hb
    simp [step, hc, doReceiveFile, hb, waits_append, waits_cons, waits_nil,
      LIBSSH2_ERROR_EAGAIN]

/-- On the slow server the handshake waits for write readiness and the read
for read readiness; the session registers five waits in all. -/
theorem wait_direction_witness :
    (run (slowFixture [7, 8, 9]) exampleRequest 4).control =
      Control.call Fn.doSessionHandshake ∧
    wouldBlock (slowFixture [7, 8, 9]) (run (slowFixture [7, 8, 9]) exampleRequest 4)
      Fn.doSessionHandshake ∧
    (run (slowFixture [7, 8, 9]) exampleRequest 5).pending =
      [Pending.wait WaitType.wait_write Fn.doSessionHandshake] ∧
    (run (slowFixture [7, 8, 9]) exampleRequest 16).control =
      Control.call Fn.doReceiveFile ∧
    wouldBlock (slowFixture [7, 8, 9]) (run (slowFixture [7, 8, 9]) exampleRequest 16)
      Fn.doReceiveFile ∧
    (run (slowFixture [7, 8, 9]) exampleRequest 17).pending =
      [Pending.wait WaitType.wait_read Fn.doReceiveFile] ∧
    waits (run (slowFixture [7, 8, 9]) exampleRequest 20).trace =
      [(WaitType.wait_write, Fn.doSessionHandshake), (WaitType.wait_write, Fn.doAuthentication),
       (WaitType.wait_write, Fn.doSFTPInit), (WaitType.wait_write, Fn.doOpenFile),
       (WaitType.wait_read, Fn.doReceiveFile)] :=
  ⟨by decide, rfl,
    ((wait_direction (slowFixture [7, 8, 9]) exampleRequest 0
      (run (slowFixture [7, 8, 9]) exampleRequest 4)).1 (by decide) rfl).1,
    by decide, rfl,
    ((wait_direction (slowFixture [7, 8, 9]) exampleRequest 0
      (run (slowFixture [7, 8, 9]) exampleRequest 16)).2.2.2.2.1 (by decide) rfl).1,
    by decide⟩

/-- Claim C12.  A zero-byte read ends the session silently: when the read
returns exactly 0, `doReceiveFile` only counts the read and returns to the
event loop: it writes nothing to the sink, registers no wait, raises no
exception, does not call `doCleanup` and does not invoke the handler; a session
whose read returns 0 therefore ends at once, with nothing outstanding, no
handle released and the handler never invoked. -/
theorem zero_read_ends_silently (env : Env) (req : Request) (n m : Nat)
    (hc : (run env req n).control = Control.call Fn.doReceiveFile)
    (h0 : (env.sftp_read (run env req n).n_sftp_read).rc = 0) :
    (∀ s : State, (env.sftp_read s.n_sftp_read).rc = 0 →
      doReceiveFile env s =
        { s with
          n_sftp_read := s.n_sftp_read + 1
          trace := s.trace ++ [Event.call Fn.doReceiveFile, Event.sftp_read 0]
          control := Control.loop }) ∧
    run env req (n + 2 + m) =
      { run env req n with
        n_sftp_read := (run env req n).n_sftp_read + 1
        trace := (run env req n).trace ++ [Event.call Fn.doReceiveFile, Event.sftp_read 0]
        control := Control.finished } ∧
    (run env req (n + 2 + m)).ctx.output_file = (run env req n).ctx.output_file ∧
    (run env req (n + 2 + m)).pending = [] ∧
    registrations (run env req (n + 2 + m)).trace = registrations (run env req n).trace ∧
    releases (run env req (n + 2 + m)).trace = 0 ∧
    cleanups (run env req (n + 2 + m)).trace = 0 ∧
    handlers (run env req (n + 2 + m)).trace = 0 := by
  have hfun : ∀ s : State, (env.sftp_read s.n_sftp_read).rc = 0 →
      doReceiveFile env s =
        { s with
          n_sftp_read := s.n_sftp_read + 1
          trace := s.trace ++ [Event.call Fn.doReceiveFile, Event.sftp_read 0]
          control := Control.loop } := by
    intro s h
    simp [doReceiveFile, h, LIBSSH2_ERROR_EAGAIN]
  have hp : (run env req n).pending = [] :=
    (singleFlight_run env req n).2.1 (by simp [hc])
  have hcl : cleanups (run env req n).trace = 0 :=
    cleanups_zero_of_running env req n (by simp [hc])
  have hha : handlers (run env req n).trace = 0 := by
    rw [(teardownOnce_run env req n).1, hcl]
  have hre : releases (run env req n).trace = 0 := by
    rw [releases_run env req n, hcl]
  have h1 : run env req (n + 1) =
      { run env req n with
        n_sftp_read := (run env req n).n_sftp_read + 1
        trace := (run env req n).trace ++ [Event.call Fn.doReceiveFile, Event.sftp_read 0]
        control := Control.loop } := by
    rw [run_succ]
    simp only [step, hc]
    exact hfun _ h0
  have h2 : run env req (n + 2 + m) =
      { run env req n with
        n_sftp_read := (run env req n).n_sftp_read + 1
        trace := (run env req n).trace ++ [Event.call Fn.doReceiveFile, Event.sftp_read 0]
        control := Control.finished } := by
    rw [show n + 2 + m = (n + 1) + (1 + m) by omega, run_add, h1]
    exact runFrom_idle env
      { run env req n with
        n_sftp_read := (run env req n).n_sftp_read + 1
        trace := (run env req n).trace ++ [Event.call Fn.doReceiveFile, Event.sftp_read 0]
        control := Control.loop } rfl hp m
  refine ⟨hfun, h2, ?_, ?_, ?_, ?_, ?_, ?_⟩
  · rw [h2]
  · rw [h2]; exact hp
  · rw [h2]; simp [isRegistration]
  · rw [h2]; simp [hre, isRelease]
  · rw [h2]; simp [hcl, isCleanup]
  · rw [h2]; simp [hha, isHandler]

/-- An empty remote file: the first read returns 0 and the session ends
without teardown and without the handler. -/
theorem zero_read_ends_silently_witness :
    (run (fixture []) exampleRequest 8).control = Control.call Fn.doReceiveFile ∧
    ((fixture []).sftp_read (run (fixture []) exampleRequest 8).n_sftp_read).rc = 0 ∧
    (run (fixture []) exampleRequest (8 + 2 + 0)).control = Control.finished ∧
    (run (fixture []) exampleRequest (8 + 2 + 0)).pending = [] ∧
    releases (run (fixture []) exampleRequest (8 + 2 + 0)).trace = 0 ∧
    handlers (run (fixture []) exampleRequest (8 + 2 + 0)).trace = 0 :=
  have h := zero_read_ends_silently (fixture []) exampleRequest 8 0 (by decide) (by decide)
  ⟨by decide, by decide, by rw [h.2.1], h.2.2.2.1, h.2.2.2.2.2.1, h.2.2.2.2.2.2.2⟩

end Libssh2Asio
